import Mathlib

/-!
Shallow embedding of the KeyMapper binding-state machine (KeyMapper.py).

The embedding models the non-GUI state of the `KeyMapper` class: the
control-to-binding map (`keyBindings`), the axis table (`axesInUse`), the
device bookkeeping (`devicesInUse`, `dataNPList`, `deviceAxisTestValues`)
and the dialogue/interception flags.  Engine calls that only subscribe or
unsubscribe event handlers on the external event object, and widget
construction, have no effect on this state and are not modelled; every
mutation of the fields above is translated statement by statement from the
source.  Python exceptions are modelled with `Except`: `KMErr.keyError`
stands for a `KeyError` from a dictionary lookup, `KMErr.cbMissing` for the
`Exception` raised by `bindKey` on a missing callback, and `KMErr.typeError`
for the `TypeError` that `removeUsedDevice` would raise on a `None`
device-type (an unreachable path, kept faithful).  Axis values are rational
numbers.
-/

/-- The four binding types (module-level constants in KeyMapper.py). -/
inductive KType where
  | eventReleased
  | eventPressed
  | eventPressedAndReleased
  | heldKey
deriving DecidableEq

/-- The `callback` argument of `bindKey`/`addKey`: `absent` is Python `None`,
`single` a single (non-None) callable, `cblist cbs` a list or tuple whose
entries are callables (`true`) or `None` (`false`). -/
inductive CallbackArg where
  | absent
  | single
  | cblist (cbs : List Bool)
deriving DecidableEq

/-- The `KeyBinding` record class.  `ktype` is the source field `type`
(a reserved word in Lean).  `groupID` is the `BitMask32` as a natural. -/
structure KeyBinding where
  binding : Option String
  defaultBinding : Option String
  ktype : KType
  callback : CallbackArg
  deviceType : Option String
  defaultDeviceType : Option String
  axisDirection : Int
  groupID : Nat
deriving DecidableEq

/-- The `AxisData` record class.  Devices are identified by their id. -/
structure AxisData where
  axis : String
  keyDescriptionPositive : Option String
  keyDescriptionNegative : Option String
  deadZone : Rat
  deviceTypePositive : Option String
  deviceTypeNegative : Option String
  devicePositive : Option Nat
  deviceNegative : Option Nat
deriving DecidableEq

/-- A connected input device: id, device-class string (already in the short
form produced by `getDeviceTypeString`, e.g. "gamepad"), and its axes with
their current values.  Axis names carry the `str(InputDevice.Axis...)` form
"Axis.<name>", which is what the polling loop in `update` passes around. -/
structure InputDev where
  devId : Nat
  devClass : String
  axes : List (String × Rat)
deriving DecidableEq

/-- External collaborators: the table of connected devices
(`base.devices.getDevices`), the save callback (present or not, raising
`IOError` or not) and `vfs.exists(self.bindingFile)`. -/
structure Env where
  devices : List InputDev
  savePresent : Bool
  saveSucceeds : Bool
  loadFileExists : Bool
deriving DecidableEq

/-- The mutable state of a `KeyMapper` instance (the fields the binding
logic reads or writes). -/
structure KMState where
  keyBindings : List (String × KeyBinding)
  axesInUse : List AxisData
  devicesInUse : List (Nat × String)
  dataNPList : List InputDev
  deviceAxisTestValues : List (Nat × List (String × Rat))
  bindingDialogueVisible : Bool
  conflictDialogueVisible : Bool
  currentConflict : Option String
  keyBeingBound : Option String
  lastKeyInterception : Option String
  lastKeyInterceptionDeviceType : Option String
  lastKeyInterceptionValue : Int
  acceptKeyCombinations : Bool
  errorShown : Bool
  deadZoneDefaultValue : Rat
deriving DecidableEq

/-- Modelled Python exceptions. -/
inductive KMErr where
  | keyError (name : String)
  | cbMissing (msg : String)
  | typeError
deriving DecidableEq

deriving instance DecidableEq for Except

/-! ## String helpers (ASCII versions of the Python string operations) -/

/-- ASCII lower-casing of one character (Python `str.lower`). -/
def lowerChar (c : Char) : Char :=
  if c.isUpper then Char.ofNat (c.toNat + 32) else c

/-- Does `hay` start with `needle` (on character lists)? -/
def startsWithCL : List Char → List Char → Bool
  | _, [] => true
  | [], _ :: _ => false
  | c :: cs, d :: ds => c = d && startsWithCL cs ds

/-- Does `hay` contain `needle` (Python `needle in hay`)? -/
def containsCL : List Char → List Char → Bool
  | [], needle => needle.isEmpty
  | c :: rest, needle => startsWithCL (c :: rest) needle || containsCL rest needle

/-- Python `needle in hay` on strings. -/
def strContains (hay needle : String) : Bool := containsCL hay.data needle.data

/-- Python `s.startswith(p)`. -/
def strStartsWith (s p : String) : Bool := startsWithCL s.data p.data

/-- Drop the first `n` characters (Python `s[n:]`). -/
def dropChars (s : String) (n : Nat) : String := String.mk (s.data.drop n)

/-- Python `binding.lower().startswith("axis.")`. -/
def isAxisBinding (b : String) : Bool :=
  startsWithCL (b.data.map lowerChar) ['a', 'x', 'i', 's', '.']

/-- Split a character list on a separator character. -/
def splitCL (sep : Char) : List Char → List (List Char)
  | [] => [[]]
  | c :: cs =>
    let r := splitCL sep cs
    if c = sep then [] :: r
    else
      match r with
      | [] => [[c]]
      | g :: gs => (c :: g) :: gs

/-- `KeyMapper.getDeviceTypeString`: the last dot-separated component of the
string form of a device class (identity on strings without a dot). -/
def getDeviceTypeString (s : String) : String :=
  let parts := (splitCL '.' s.data).map String.mk
  if parts.length ≤ 1 then s else parts.getLastD s

/-! ## Association-list helpers for the `keyBindings` dictionary -/

/-- Lookup in the `keyBindings` dictionary (first entry with the key). -/
def kbLookup : List (String × KeyBinding) → String → Option KeyBinding
  | [], _ => none
  | (k, v) :: rest, key => if k = key then some v else kbLookup rest key

/-- Update the entry for a key in place (Python dict update preserves
insertion order). -/
def kbUpdate (l : List (String × KeyBinding)) (key : String)
    (f : KeyBinding → KeyBinding) : List (String × KeyBinding) :=
  l.map (fun p => if p.1 = key then (p.1, f p.2) else p)

/-- Clearing a key (KeyMapper.clearKeyEvent, lines setting `binding` and
`deviceType` to `None`). -/
def nullEntry (kb : KeyBinding) : KeyBinding :=
  { kb with binding := none, deviceType := none }

/-- The fresh `AxisData()` constructor with `axis` and `deadZone` filled in
as `loadKeyMapping` and `bindKey` do. -/
def newAxisData (axisStr : String) (dz : Rat) : AxisData :=
  { axis := axisStr
    keyDescriptionPositive := none
    keyDescriptionNegative := none
    deadZone := dz
    deviceTypePositive := none
    deviceTypeNegative := none
    devicePositive := none
    deviceNegative := none }

/-- Record a claim on an axis entry (`bindKey`, the per-direction field
assignments, used both for found entries and for the newly created one). -/
def claimAxis (a : AxisData) (kd : String) (dir : Int) (device : Option Nat)
    (dt : String) : AxisData :=
  if 0 < dir then
    { a with keyDescriptionPositive := some kd
             devicePositive := device
             deviceTypePositive := some dt }
  else if dir < 0 then
    { a with keyDescriptionNegative := some kd
             deviceNegative := device
             deviceTypeNegative := some dt }
  else a

/-- Show the error dialogue (`showErrorDialogue`); only the flag is state. -/
def showErrorDialogue (s : KMState) : KMState := { s with errorShown := true }

/-! ## Device bookkeeping -/

/-- `KeyMapper.removeUsedDevice`.  Keyboard and mouse are never removed;
otherwise every in-use device of the class is dropped from `devicesInUse`
and from the binding-capture list, and axis entries referencing it lose
their device handle. -/
def removeUsedDevice (s : KMState) (deviceType : String) : KMState :=
  if deviceType = "keyboard" ∨ deviceType = "mouse" then s
  else
    let removal := s.devicesInUse.filter (fun d => d.2 = deviceType)
    let axes := s.axesInUse.map (fun a =>
      let a1 := if removal.any (fun d => a.devicePositive = some d.1) then
          { a with devicePositive := none } else a
      if removal.any (fun d => a1.deviceNegative = some d.1) then
        { a1 with deviceNegative := none } else a1)
    { s with
      devicesInUse := s.devicesInUse.filter (fun d => ¬ d.2 = deviceType)
      dataNPList := s.dataNPList.filter
        (fun dev => ¬ (removal.any (fun d => d.1 = dev.devId)))
      axesInUse := axes }

/-- `KeyMapper.addUsedDevice`.  If a device of the class is already in use
it is returned unchanged; otherwise the first connected device of the class
is added and axis entries expecting the class get its handle. -/
def addUsedDevice (env : Env) (s : KMState) (deviceTypeToAdd : String) :
    KMState × Option Nat :=
  match s.devicesInUse.find? (fun d => d.2 = deviceTypeToAdd) with
  | some d => (s, some d.1)
  | none =>
    match env.devices.find? (fun dv => dv.devClass = deviceTypeToAdd) with
    | none => (s, none)
    | some dev =>
      let axes := s.axesInUse.map (fun a =>
        let a1 := if a.deviceTypePositive = some deviceTypeToAdd then
            { a with devicePositive := some dev.devId } else a
        if a1.deviceTypeNegative = some deviceTypeToAdd then
          { a1 with deviceNegative := some dev.devId } else a1)
      ({ s with
         devicesInUse := s.devicesInUse ++ [(dev.devId, deviceTypeToAdd)]
         axesInUse := axes }, some dev.devId)

/-! ## clearKeyEvent -/

/-- One step of the axis loop of `clearKeyEvent`: on a matching axis entry
the claimant of the requested direction (and its device data) is removed and
its control name collected. -/
def axisClearStep (direction : Int) (bstr : String)
    (acc : List String × List AxisData) (a : AxisData) :
    List String × List AxisData :=
  if a.axis = bstr then
    if direction = -1 then
      match a.keyDescriptionNegative with
      | some kd =>
        (acc.1 ++ [kd], acc.2 ++ [{ a with keyDescriptionNegative := none
                                           deviceTypeNegative := none
                                           deviceNegative := none }])
      | none => (acc.1, acc.2 ++ [a])
    else if direction = 1 then
      match a.keyDescriptionPositive with
      | some kd =>
        (acc.1 ++ [kd], acc.2 ++ [{ a with keyDescriptionPositive := none
                                           deviceTypePositive := none
                                           devicePositive := none }])
      | none => (acc.1, acc.2 ++ [a])
    else (acc.1, acc.2 ++ [a])
  else (acc.1, acc.2 ++ [a])

/-- The loop of `clearKeyEvent` over `keysToChange`: read the device type,
null the binding and device type, collect the read value.  A key absent from
the dictionary raises `KeyError`. -/
def clearKeysLoop (kbs : List (String × KeyBinding)) :
    List String → Except KMErr (List (String × KeyBinding) × List (Option String))
  | [] => Except.ok (kbs, [])
  | k :: rest =>
    match kbLookup kbs k with
    | none => Except.error (KMErr.keyError k)
    | some kb =>
      match clearKeysLoop (kbUpdate kbs k nullEntry) rest with
      | Except.ok (kbs2, dts) => Except.ok (kbs2, kb.deviceType :: dts)
      | Except.error e => Except.error e

/-- The device-pruning loop of `clearKeyEvent`: every collected device type
no longer referenced by any binding is removed from use.  `boundDeviceList`
is computed once before the loop in the source and is passed in fixed.  A
`None` device type reaching `removeUsedDevice` would raise `TypeError` in
the source (it never does: a just-cleared key contributes `None` to
`boundDeviceList`). -/
def removeDevicesLoop (s : KMState) (boundDeviceList : List (Option String)) :
    List (Option String) → Except KMErr KMState
  | [] => Except.ok s
  | dt :: rest =>
    if dt ∈ boundDeviceList then removeDevicesLoop s boundDeviceList rest
    else
      match dt with
      | some d => removeDevicesLoop (removeUsedDevice s d) boundDeviceList rest
      | none => Except.error KMErr.typeError

/-- Is an axis entry still claimed in at least one direction?  The final
line of `clearKeyEvent` keeps exactly these entries. -/
def axisClaimed (a : AxisData) : Bool :=
  a.keyDescriptionPositive.isSome || a.keyDescriptionNegative.isSome

/-- The controls currently holding a button binding (the non-axis
`keysToChange` loop of `clearKeyEvent`). -/
def holdersOf (kbs : List (String × KeyBinding)) (b : String) : List String :=
  (kbs.filter (fun p => some b = p.2.binding)).map Prod.fst

/-- The first stage of `clearKeyEvent` on a string binding: the collected
`keysToChange` and the axis table after the axis loop (unchanged for a
button binding). -/
def clearTargets (s : KMState) (b : String) (direction : Int) :
    List String × List AxisData :=
  if isAxisBinding b then
    s.axesInUse.foldl (axisClearStep direction (dropChars b 5)) ([], [])
  else
    (holdersOf s.keyBindings b, s.axesInUse)

/-- The second stage of `clearKeyEvent`: unbind the collected controls,
release device types no longer referenced by any binding, and prune axis
entries with no remaining claimant. -/
def clearKeyFinish (s1 : KMState) (keysToChange : List String) :
    Except KMErr KMState :=
  match clearKeysLoop s1.keyBindings keysToChange with
  | Except.error e => Except.error e
  | Except.ok (kbs, deviceTypesToCheck) =>
    let s2 := { s1 with keyBindings := kbs }
    let boundDeviceList := s2.keyBindings.map (fun p => p.2.deviceType)
    match removeDevicesLoop s2 boundDeviceList deviceTypesToCheck with
    | Except.error e => Except.error e
    | Except.ok s3 =>
      Except.ok { s3 with axesInUse := s3.axesInUse.filter axisClaimed }

/-- `KeyMapper.clearKeyEvent`.  A non-string (`None`) binding returns at
once.  For an axis binding the claimant of the requested direction is
cleared from each matching axis entry; for a button binding every control
holding it is collected.  Collected controls are unbound, device types no
longer referenced are released, and axis entries with no remaining claimant
are pruned.  (The two `eventObject.ignore` calls only touch the external
event object.) -/
def clearKeyEvent (s : KMState) (binding : Option String) (direction : Int) :
    Except KMErr KMState :=
  match binding with
  | none => Except.ok s
  | some b =>
    let kta := clearTargets s b direction
    clearKeyFinish { s with axesInUse := kta.2 } kta.1

/-- The three field assignments of `bindKey` (`binding`, `deviceType`,
`axisDirection`). -/
def setFields (binding : Option String) (deviceType : Option String)
    (axisDirection : Int) (kb : KeyBinding) : KeyBinding :=
  { kb with binding := binding
            deviceType := deviceType
            axisDirection := axisDirection }

/-! ## bindKey -/

/-- The callback validation of `bindKey` (the raise-branches of the type
dispatch; the `eventObject.accept` calls in the non-raising branches touch
only the external event object).  Returns the message of the `Exception`
raised, or `none` when the binding type accepts the callback. -/
def callbackCheckMsg (ty : KType) (cb : CallbackArg) : Option String :=
  match ty with
  | KType.heldKey => none
  | KType.eventPressed =>
    match cb with
    | CallbackArg.absent => some "Callback missing (pressed event)"
    | _ => none
  | KType.eventReleased =>
    match cb with
    | CallbackArg.absent => some "Callback missing (released event)"
    | _ => none
  | KType.eventPressedAndReleased =>
    match cb with
    | CallbackArg.cblist cbs =>
      if cbs.length < 2 then some "Callback missing (2 needed)"
      else if cbs.get? 0 = some false then some "First callback missing"
      else if cbs.get? 1 = some false then some "Second callback missing"
      else none
    | CallbackArg.absent => some "Callback missing (pressed and released)"
    | CallbackArg.single => none

/-- The committing tail of `bindKey` (everything after the callback
validation): store the new binding, device type and axis direction, and for
an axis binding register the device and update or create the axis entry,
claiming the direction. -/
def bindKeyCommit (env : Env) (sB : KMState) (keyDescription : String)
    (binding : Option String) (deviceType : Option String)
    (axisDirection : Int) : KMState :=
  let sC := { sB with keyBindings :=
    (kbUpdate sB.keyBindings keyDescription
      (setFields binding deviceType axisDirection)) }
  match binding, deviceType with
  | some b, some dt =>
    let pr := addUsedDevice env sC dt
    let sD := pr.1
    let device := pr.2
    if isAxisBinding b then
      let axisStr := dropChars b 5
      let foundAxis := sD.axesInUse.any (fun a => a.axis = axisStr)
      let sE := { sD with axesInUse := sD.axesInUse.map (fun a =>
        if a.axis = axisStr then claimAxis a keyDescription axisDirection device dt
        else a) }
      if foundAxis then sE
      else { sE with axesInUse := sE.axesInUse ++
        [claimAxis (newAxisData axisStr sE.deadZoneDefaultValue)
          keyDescription axisDirection device dt] }
    else sD
  | _, _ => sC

/-- `KeyMapper.bindKey`.  Clears the new binding from any other control and
the control's old binding, validates the callback for the binding type, and
commits (`bindKeyCommit`). -/
def bindKey (env : Env) (s : KMState) (keyDescription : String)
    (binding : Option String) (ktype : KType) (callback : CallbackArg)
    (deviceType : Option String) (axisDirection : Int) :
    Except KMErr KMState :=
  match clearKeyEvent s binding axisDirection with
  | Except.error e => Except.error e
  | Except.ok sA =>
    match kbLookup sA.keyBindings keyDescription with
    | none => Except.error (KMErr.keyError keyDescription)
    | some kb0 =>
      match clearKeyEvent sA kb0.binding kb0.axisDirection with
      | Except.error e => Except.error e
      | Except.ok sB =>
        match callbackCheckMsg ktype callback with
        | some msg => Except.error (KMErr.cbMissing msg)
        | none =>
          Except.ok (bindKeyCommit env sB keyDescription binding deviceType
            axisDirection)

/-! ## Saving and loading -/

/-- The key records `saveKeyMapping` hands to the save callback:
(control, binding, deviceType, axisDirection). -/
def keySaveData (s : KMState) : List (String × Option String × Option String × Int) :=
  s.keyBindings.map (fun p => (p.1, p.2.binding, p.2.deviceType, p.2.axisDirection))

/-- The axis records `saveKeyMapping` hands to the save callback:
(axis, deadZone). -/
def axisSaveData (s : KMState) : List (String × Rat) :=
  s.axesInUse.map (fun a => (a.axis, a.deadZone))

/-- `KeyMapper.saveKeyMapping`.  The records are produced by `keySaveData`
and `axisSaveData`; the byte I/O is the external save callback, which may be
missing or raise `IOError` — both only surface the error dialogue. -/
def saveKeyMapping (env : Env) (s : KMState) : KMState :=
  if env.savePresent then
    if env.saveSucceeds then s else showErrorDialogue s
  else showErrorDialogue s

/-- The result of the external load callback. -/
inductive LoadOutcome where
  | noCallback
  | ioError
  | ok (keyData : List (String × Option String × Option String × Int))
       (axisData : List (String × Rat))
deriving DecidableEq

/-- The first loop of `loadKeyMapping`: look each saved control up in
`keyBindings` (a stale name raises `KeyError`, which the `except IOError`
clause does not catch) and pair the saved record with the current binding
type and callback. -/
def buildBindingList (kbs : List (String × KeyBinding)) :
    List (String × Option String × Option String × Int) →
    Except KMErr (List (String × Option String × KType × CallbackArg × Option String × Int))
  | [] => Except.ok []
  | (description, binding, deviceType, axisDirection) :: rest =>
    match kbLookup kbs description with
    | none => Except.error (KMErr.keyError description)
    | some bindingData =>
      match buildBindingList kbs rest with
      | Except.error e => Except.error e
      | Except.ok tl =>
        Except.ok ((description, binding, bindingData.ktype, bindingData.callback,
          deviceType, axisDirection) :: tl)

/-- The final loop of `loadKeyMapping`: re-bind every loaded record. -/
def bindLoop (env : Env) (s : KMState) :
    List (String × Option String × KType × CallbackArg × Option String × Int) →
    Except KMErr KMState
  | [] => Except.ok s
  | (kd, b, ty, cb, dt, dir) :: rest =>
    match bindKey env s kd b ty cb dt dir with
    | Except.error e => Except.error e
    | Except.ok s2 => bindLoop env s2 rest

/-- `KeyMapper.loadKeyMapping`.  A missing callback or an `IOError` from it
only surface the error dialogue (the latter only when the binding file
exists); otherwise the axis table is replaced by fresh entries from the
axis records and every key record is re-bound. -/
def loadKeyMapping (env : Env) (s : KMState) (outcome : LoadOutcome) :
    Except KMErr KMState :=
  match outcome with
  | LoadOutcome.noCallback => Except.ok (showErrorDialogue s)
  | LoadOutcome.ioError =>
    Except.ok (if env.loadFileExists then showErrorDialogue s else s)
  | LoadOutcome.ok keyData axisData =>
    match buildBindingList s.keyBindings keyData with
    | Except.error e => Except.error e
    | Except.ok bindingList =>
      let s1 := { s with axesInUse := axisData.map (fun p => newAxisData p.1 p.2) }
      bindLoop env s1 bindingList

/-! ## The rebind-capture flow -/

/-- `KeyMapper.keyInterception`: record the candidate input.  Combination
inputs (a dash in the name) are ignored unless combinations are accepted;
the value is normalised to -1, 0 or 1. -/
def keyInterception (s : KMState) (deviceType : Option String) (key : String)
    (keyValue : Rat) : KMState :=
  let dt := match deviceType with
    | none =>
      if strStartsWith key "mouse" then
        some (getDeviceTypeString "DeviceClass.mouse")
      else some (getDeviceTypeString "DeviceClass.keyboard")
    | some d => some d
  if s.acceptKeyCombinations || ! strContains key "-" then
    { s with lastKeyInterceptionDeviceType := dt
             lastKeyInterception := some key
             lastKeyInterceptionValue :=
               if 0 < keyValue then 1 else if keyValue < 0 then -1 else 0 }
  else s

/-- The inner axis loop of the conflict scan in `keyRelease`: an axis-bound
control conflicts only when the candidate value claims the direction that
control holds in some axis entry. -/
def axisDirMatch (axes : List AxisData) (kd : String) (value : Int) : Bool :=
  axes.any (fun a =>
    (a.keyDescriptionPositive = some kd && 0 < value) ||
    (a.keyDescriptionNegative = some kd && value < 0))

/-- The conflict scan of `keyRelease` (the loop over `keyBindings` with the
`conflict` accumulator). -/
def conflictScan (kbs : List (String × KeyBinding)) (axes : List AxisData)
    (keyBeingBound : String) (boundGroup : Nat) (candidate : String)
    (value : Int) : Option String :=
  kbs.foldl (fun conflict p =>
    if p.2.binding = some candidate ∧ p.1 ≠ keyBeingBound ∧
        Nat.land p.2.groupID boundGroup ≠ 0 then
      if isAxisBinding candidate then
        if axisDirMatch axes p.1 value then some p.1 else conflict
      else some p.1
    else conflict) none

/-- The fold step of `conflictScan`, named for the fold lemmas. -/
def conflictStep (axes : List AxisData) (keyBeingBound : String)
    (boundGroup : Nat) (candidate : String) (value : Int) :
    Option String → (String × KeyBinding) → Option String :=
  fun conflict p =>
    if p.2.binding = some candidate ∧ p.1 ≠ keyBeingBound ∧
        Nat.land p.2.groupID boundGroup ≠ 0 then
      if isAxisBinding candidate then
        if axisDirMatch axes p.1 value then some p.1 else conflict
      else some p.1
    else conflict

/-- When one registered control makes the conflict scan report a conflict:
its binding equals the candidate, it is not the control being rebound, its
group mask overlaps the bound control's, and — when the candidate is an
axis — the candidate's value sign matches a direction it claims. -/
def conflictHit (axes : List AxisData) (keyBeingBound : String)
    (boundGroup : Nat) (candidate : String) (value : Int)
    (p : String × KeyBinding) : Bool :=
  decide (p.2.binding = some candidate ∧ p.1 ≠ keyBeingBound ∧
      Nat.land p.2.groupID boundGroup ≠ 0) &&
    (! isAxisBinding candidate || axisDirMatch axes p.1 value)

/-- `KeyMapper.clearEvents` as far as this state is concerned: the capture
throwers and per-device nodes are dropped. -/
def clearEventsModel (s : KMState) : KMState := { s with dataNPList := [] }

/-- `KeyMapper.handleBindingConflict`: hide the binding dialogue widget
(the `bindingDialogueVisible` flag itself is not touched by the source),
stop capturing, record the conflicting control and show the conflict
dialogue. -/
def handleBindingConflict (s : KMState) (conflictingKey : String) : KMState :=
  let s1 := clearEventsModel s
  { s1 with currentConflict := some conflictingKey
            conflictDialogueVisible := true }

/-- `KeyMapper.hideBindingDialogue`. -/
def hideBindingDialogue (s : KMState) : KMState :=
  clearEventsModel { s with bindingDialogueVisible := false
                            lastKeyInterception := none
                            lastKeyInterceptionDeviceType := none
                            lastKeyInterceptionValue := 0 }

/-- `KeyMapper.finishKeyRelease`: commit the candidate with `bindKey`,
close the dialogue and save the mapping. -/
def finishKeyRelease (env : Env) (s : KMState) : Except KMErr KMState :=
  match s.keyBeingBound with
  | none => Except.error (KMErr.keyError "None")
  | some kd =>
    match kbLookup s.keyBindings kd with
    | none => Except.error (KMErr.keyError kd)
    | some kb =>
      match bindKey env s kd s.lastKeyInterception kb.ktype kb.callback
          s.lastKeyInterceptionDeviceType s.lastKeyInterceptionValue with
      | Except.error e => Except.error e
      | Except.ok s2 =>
        let s3 := hideBindingDialogue { s2 with keyBeingBound := none }
        let s4 := saveKeyMapping env s3
        Except.ok { s4 with deviceAxisTestValues := [] }

/-- The guard of `keyRelease` on a pending candidate (the workaround branch
admits a mouse key even when no interception was recorded). -/
def keyReleaseGuard (s : KMState) (key : String) : Bool :=
  s.lastKeyInterception.isSome ||
    (strContains key "mouse" && (s.acceptKeyCombinations || ! strContains key "-"))

/-- `KeyMapper.keyRelease`: while the binding dialogue is visible and a
control is being bound, finalise the pending candidate: fill in the
candidate and its device type if the workaround branch applies, scan for a
conflicting control, and either open the conflict dialogue or commit. -/
def keyRelease (env : Env) (s : KMState) (key : String) : Except KMErr KMState :=
  if s.bindingDialogueVisible then
    match s.keyBeingBound with
    | none => Except.ok s
    | some kbb =>
      if keyReleaseGuard s key then
        let s1 := if s.lastKeyInterception.isNone then
            { s with lastKeyInterception := some key } else s
        let s2 := if s1.lastKeyInterceptionDeviceType.isNone then
            { s1 with lastKeyInterceptionDeviceType :=
                (some (if strStartsWith ((s1.lastKeyInterception).getD "") "mouse" then
                    getDeviceTypeString "DeviceClass.mouse"
                  else getDeviceTypeString "DeviceClass.keyboard")) }
          else s1
        match kbLookup s2.keyBindings kbb with
        | none => Except.error (KMErr.keyError kbb)
        | some boundKb =>
          let candidate := (s2.lastKeyInterception).getD key
          match conflictScan s2.keyBindings s2.axesInUse kbb boundKb.groupID
              candidate s2.lastKeyInterceptionValue with
          | some conflictKd => Except.ok (handleBindingConflict s2 conflictKd)
          | none => finishKeyRelease env s2
      else Except.ok s
  else Except.ok s

/-! ## The per-frame poll while awaiting a rebind -/

/-- Python `abs` on rationals. -/
def ratAbs (x : Rat) : Rat := if x < 0 then -x else x

/-- The firing test of `update` for one axis: with no baseline sample the
absolute value must exceed 0.5; with a baseline the difference from it must
exceed 0.3.  The source compares IEEE doubles; this model compares exact
rationals, so statements about it are only transferable to the program at
inputs whose values, differences and thresholds are away from the float
rounding of the constants (e.g. an exact delta of 1/4 against 0.3) — at a
boundary such as `abs(1 - 0.7)` the doubles land a hair above 0.3 while the
rationals give exactly 3/10. -/
def fireCond (tests : List (String × Rat)) (axisId : String) (value : Rat) : Bool :=
  match tests.find? (fun p => p.1 = axisId) with
  | none => decide ((1 : Rat)/2 < ratAbs value)
  | some p => decide ((3 : Rat)/10 < ratAbs (value - p.2))

/-- Scan one device's axes in order for the first firing axis
(`InputDevice.Axis.none` is skipped; a device missing from
`deviceAxisTestValues` raises `KeyError` at the first real axis, as the
subscript in the source does). -/
def scanAxes (testsForDev : Option (List (String × Rat))) :
    List (String × Rat) → Except KMErr (Option (String × Rat))
  | [] => Except.ok none
  | (axisId, value) :: rest =>
    if axisId = "Axis.none" then scanAxes testsForDev rest
    else
      match testsForDev with
      | none => Except.error (KMErr.keyError "deviceAxisTestValues")
      | some tests =>
        if fireCond tests axisId value then Except.ok (some (axisId, value))
        else scanAxes testsForDev rest

/-- Scan the capture devices in order for the first firing axis. -/
def updateAwaitingScan (s : KMState) :
    List InputDev → Except KMErr (Option (InputDev × String × Rat))
  | [] => Except.ok none
  | dev :: rest =>
    match scanAxes ((s.deviceAxisTestValues.find? (fun p => p.1 = dev.devId)).map Prod.snd)
        dev.axes with
    | Except.error e => Except.error e
    | Except.ok (some (axisId, value)) => Except.ok (some (dev, axisId, value))
    | Except.ok none => updateAwaitingScan s rest

/-- The awaiting-rebind branch of `KeyMapper.update`: while the binding
dialogue is visible, poll the capture devices' axes and, for the first
firing axis, synthesise the interception and release events and return for
this tick.  (The idle branch of `update` drives the control-state table
through `handleAxis` and is outside the claims about this flow.) -/
def updateAwaiting (env : Env) (s : KMState) : Except KMErr KMState :=
  if s.bindingDialogueVisible then
    match updateAwaitingScan s s.dataNPList with
    | Except.error e => Except.error e
    | Except.ok none => Except.ok s
    | Except.ok (some (dev, axisId, value)) =>
      keyRelease env
        (keyInterception s (some (getDeviceTypeString dev.devClass)) axisId value)
        axisId
  else Except.ok s

/-- Spec-modelled scan condition for claim C8, following the claim's words:
an axis fires when "its value exceeds 0.5 in absolute terms or differs from
its baseline sample by more than 0.3". -/
def claimFireCond (tests : List (String × Rat)) (axisId : String) (value : Rat) : Bool :=
  decide ((1 : Rat)/2 < ratAbs value) ||
    (match tests.find? (fun p => p.1 = axisId) with
     | none => false
     | some p => decide ((3 : Rat)/10 < ratAbs (value - p.2)))

/-- Spec-modelled scan for claim C8: the first axis of the polled devices
satisfying `claimFireCond`. -/
def claimScan (s : KMState) : List InputDev → Option (InputDev × String × Rat)
  | [] => none
  | dev :: rest =>
    let tests := ((s.deviceAxisTestValues.find? (fun p => p.1 = dev.devId)).map Prod.snd).getD []
    match dev.axes.find? (fun p => p.1 ≠ "Axis.none" && claimFireCond tests p.1 p.2) with
    | some p => some (dev, p.1, p.2)
    | none => claimScan s rest

/-- The code-level scan condition of `updateAwaiting`, as a predicate on one
(device, axis) pair, for stating the amended claim C8. -/
def codeFireCond (s : KMState) (dev : InputDev) (axisId : String) (value : Rat) : Bool :=
  axisId ≠ "Axis.none" &&
    fireCond (((s.deviceAxisTestValues.find? (fun p => p.1 = dev.devId)).map Prod.snd).getD [])
      axisId value

/-- Flattened (device, axis, value) scan order of `updateAwaiting`. -/
def scanOrder (npl : List InputDev) : List (InputDev × String × Rat) :=
  npl.flatMap (fun dev => dev.axes.map (fun p => (dev, p.1, p.2)))

/-! ## Vocabulary for the claim statements -/

/-- Null the entries of the given controls (the effect of the
`keysToChange` loop of `clearKeyEvent` on the dictionary). -/
def nullK (l : List (String × KeyBinding)) (ks : List String) :
    List (String × KeyBinding) :=
  l.map (fun p => if p.1 ∈ ks then (p.1, nullEntry p.2) else p)

/-- The per-entry effect of the axis loop of `clearKeyEvent`. -/
def dirClear (direction : Int) (bstr : String) (a : AxisData) : AxisData :=
  if a.axis = bstr then
    if direction = -1 then
      match a.keyDescriptionNegative with
      | some _ => { a with keyDescriptionNegative := none
                           deviceTypeNegative := none
                           deviceNegative := none }
      | none => a
    else if direction = 1 then
      match a.keyDescriptionPositive with
      | some _ => { a with keyDescriptionPositive := none
                           deviceTypePositive := none
                           devicePositive := none }
      | none => a
    else a
  else a

/-- The controls collected by the axis loop of `clearKeyEvent`. -/
def claimantsOf (direction : Int) (bstr : String) : List AxisData → List String
  | [] => []
  | a :: rest =>
    (if a.axis = bstr then
      if direction = -1 then
        (match a.keyDescriptionNegative with | some kd => [kd] | none => [])
      else if direction = 1 then
        (match a.keyDescriptionPositive with | some kd => [kd] | none => [])
      else []
    else []) ++ claimantsOf direction bstr rest

/-- Two axis entries with the same axis name and claimants (device handles
may differ). -/
def claimsEq (a b : AxisData) : Prop :=
  b.axis = a.axis ∧ b.keyDescriptionPositive = a.keyDescriptionPositive ∧
    b.keyDescriptionNegative = a.keyDescriptionNegative

/-- The axis-table invariant of claim C3: every entry has at least one
direction bound. -/
def axesInvariant (axes : List AxisData) : Prop :=
  ∀ a ∈ axes, axisClaimed a = true

/-- Every claimant recorded in the axis table is a registered control whose
binding is an axis binding of that entry's axis, in the claimed direction.
This is the part of the data-model invariant the round-trip proof carries. -/
def ClaimsOK (kbs : List (String × KeyBinding)) (axes : List AxisData) : Prop :=
  ∀ a ∈ axes,
    (∀ kd, a.keyDescriptionPositive = some kd →
      ∃ kb b, kbLookup kbs kd = some kb ∧ kb.binding = some b ∧
        isAxisBinding b = true ∧ dropChars b 5 = a.axis ∧ 0 < kb.axisDirection) ∧
    (∀ kd, a.keyDescriptionNegative = some kd →
      ∃ kb b, kbLookup kbs kd = some kb ∧ kb.binding = some b ∧
        isAxisBinding b = true ∧ dropChars b 5 = a.axis ∧ kb.axisDirection < 0)

/-- No two distinct controls hold the same physical input: a button binding
is held by at most one control, and an axis direction (sign) of one axis is
held by at most one control. -/
def NoSharedInput (kbs : List (String × KeyBinding)) : Prop :=
  ∀ c1 kb1 c2 kb2 b1 b2, (c1, kb1) ∈ kbs → (c2, kb2) ∈ kbs → c1 ≠ c2 →
    kb1.binding = some b1 → kb2.binding = some b2 →
    (b1 = b2 → isAxisBinding b1 = true) ∧
    (isAxisBinding b1 = true → isAxisBinding b2 = true →
      dropChars b1 5 = dropChars b2 5 →
      ¬ ((0 < kb1.axisDirection ∧ 0 < kb2.axisDirection) ∨
         (kb1.axisDirection < 0 ∧ kb2.axisDirection < 0)))

/-- Every registered control's stored binding type and callback pass the
callback validation of `bindKey` (guaranteed at registration, since `addKey`
funnels through `bindKey`). -/
def ValidCallbacks (kbs : List (String × KeyBinding)) : Prop :=
  ∀ p ∈ kbs, callbackCheckMsg p.2.ktype p.2.callback = none

/-- The callback requirement of claim C6, in the claim's words: held-type
bindings require nothing; pressed and released require a supplied (non-None)
callback; pressed-and-released requires a single callback or a pair of two
non-None callbacks. -/
def cbRequirementMet (ty : KType) (cb : CallbackArg) : Prop :=
  match ty with
  | KType.heldKey => True
  | KType.eventPressed => cb ≠ CallbackArg.absent
  | KType.eventReleased => cb ≠ CallbackArg.absent
  | KType.eventPressedAndReleased =>
    cb = CallbackArg.single ∨
      ∃ cbs, cb = CallbackArg.cblist cbs ∧ 2 ≤ cbs.length ∧
        cbs.get? 0 = some true ∧ cbs.get? 1 = some true

/-- The claim-relevant projection of an axis entry: its axis name and the
two claimant fields (device handles disregarded). -/
def axesClaims (axes : List AxisData) : List (String × Option String × Option String) :=
  axes.map (fun a => (a.axis, a.keyDescriptionPositive, a.keyDescriptionNegative))

/-- No axis entry for `bstr` still claims direction `d`. -/
def noClaimants (d : Int) (bstr : String) (axes : List AxisData) : Prop :=
  ∀ a ∈ axes, a.axis = bstr →
    (d = 1 → a.keyDescriptionPositive = none) ∧
    (d = -1 → a.keyDescriptionNegative = none)

/-! ## Concrete states for witnesses and counterexamples -/

/-- A held-type key binding with no binding set (the shape `addKey` builds
before `bindKey` fills it in). -/
def baseKB : KeyBinding :=
  { binding := none
    defaultBinding := none
    ktype := KType.heldKey
    callback := CallbackArg.absent
    deviceType := none
    defaultDeviceType := none
    axisDirection := 0
    groupID := 1 }

/-- An idle manager state with no controls. -/
def baseState : KMState :=
  { keyBindings := []
    axesInUse := []
    devicesInUse := []
    dataNPList := []
    deviceAxisTestValues := []
    bindingDialogueVisible := false
    conflictDialogueVisible := false
    currentConflict := none
    keyBeingBound := none
    lastKeyInterception := none
    lastKeyInterceptionDeviceType := none
    lastKeyInterceptionValue := 0
    acceptKeyCombinations := false
    errorShown := false
    deadZoneDefaultValue := 3/10 }

/-- An environment with no devices and working save callbacks. -/
def envNull : Env :=
  { devices := [], savePresent := true, saveSucceeds := true, loadFileExists := true }

/-- Two keyboard-held controls: `c1` bound to "x" in group 1, `c2` unbound
in group 2 (disjoint masks). -/
def twoControls : KMState :=
  { baseState with keyBindings :=
    [("c1", { baseKB with binding := some "x", deviceType := some "keyboard" }),
     ("c2", { baseKB with groupID := 2 })] }

/-- Both controls bound to the same button "x" with disjoint masks. -/
def twoControlsShared : KMState :=
  { baseState with keyBindings :=
    [("c1", { baseKB with binding := some "x", deviceType := some "keyboard" }),
     ("c2", { baseKB with binding := some "x", deviceType := some "keyboard"
                          groupID := 2 })] }

/-- Positive and negative controls on the gamepad axis `left_x`, with the
axis entry claiming both. -/
def axisPairState : KMState :=
  { baseState with
    keyBindings :=
      [("cp", { baseKB with binding := some "Axis.left_x"
                            deviceType := some "gamepad"
                            axisDirection := 1 }),
       ("cn", { baseKB with binding := some "Axis.left_x"
                            deviceType := some "gamepad"
                            axisDirection := -1
                            groupID := 2 })]
    axesInUse :=
      [{ axis := "left_x"
         keyDescriptionPositive := some "cp"
         keyDescriptionNegative := some "cn"
         deadZone := 3/10
         deviceTypePositive := some "gamepad"
         deviceTypeNegative := some "gamepad"
         devicePositive := none
         deviceNegative := none }] }

/-- A gamepad whose `left_x` axis reads a full deflection of 1. -/
def c8Dev : InputDev :=
  { devId := 0, devClass := "gamepad", axes := [("Axis.left_x", 1)] }

/-- Awaiting-rebind state polling `c8Dev`, whose baseline sample for
`left_x` is 3/4: the value 1 exceeds 0.5 in absolute terms but differs
from the baseline by only 1/4, below the 0.3 delta threshold.  1, 3/4 and
1/4 are exact binary floats and 1/4 lies well below 0.3, so the source's
float evaluation of `abs(1 - 0.75) > 0.3` agrees with the rational
model here (unlike boundary inputs such as a baseline of 0.7, where
floats put the delta a hair above 0.3). -/
def c8CexState : KMState :=
  { baseState with
    bindingDialogueVisible := true
    keyBeingBound := some "c1"
    dataNPList := [c8Dev]
    deviceAxisTestValues := [(0, [("Axis.left_x", 3/4)])] }

/-- The state after binding `c2` to the button "y" in `twoControls`
(for the C4 witness). -/
def c4W1 : KMState :=
  (bindKey envNull twoControls "c2" (some "y") KType.heldKey CallbackArg.absent
    (some "keyboard") 0).toOption.getD baseState

/-- The state after then clearing "y" with direction 0 (for the C4 witness). -/
def c4W2 : KMState := (clearKeyEvent c4W1 (some "y") 0).toOption.getD baseState

/-- The state after binding `c2` to "x" (held by `c1`) in `twoControls`
(for the C5 witness). -/
def c5W : KMState :=
  (bindKey envNull twoControls "c2" (some "x") KType.heldKey CallbackArg.absent
    (some "keyboard") 0).toOption.getD baseState

/-- Mid-rebind state: `c2` is being rebound to the candidate "x", which
`c1` already holds, with both controls in group 1 (overlapping masks). -/
def c1Over : KMState :=
  { baseState with
    keyBindings :=
      [("c1", { baseKB with binding := some "x", deviceType := some "keyboard" }),
       ("c2", baseKB)]
    bindingDialogueVisible := true
    keyBeingBound := some "c2"
    lastKeyInterception := some "x"
    lastKeyInterceptionDeviceType := some "keyboard"
    lastKeyInterceptionValue := 1 }

/-- The same mid-rebind state with `c2` in group 2 (disjoint masks). -/
def c1Dis : KMState :=
  { baseState with
    keyBindings :=
      [("c1", { baseKB with binding := some "x", deviceType := some "keyboard" }),
       ("c2", { baseKB with groupID := 2 })]
    bindingDialogueVisible := true
    keyBeingBound := some "c2"
    lastKeyInterception := some "x"
    lastKeyInterceptionDeviceType := some "keyboard"
    lastKeyInterceptionValue := 1 }

/-- The axis-pair state after clearing the positive direction of the shared
axis (for the C3 scenario). -/
def c3W : KMState :=
  (clearKeyEvent axisPairState (some "Axis.left_x") 1).toOption.getD baseState

/-- The state after re-binding `cp` on the axis pair (for the C3 witness). -/
def c3WB : KMState :=
  (bindKey envNull axisPairState "cp" (some "Axis.left_x") KType.heldKey
    CallbackArg.absent (some "gamepad") 1).toOption.getD baseState

/-! # Lemmas and claim theorems -/

section Lemmas

lemma kbLookup_isSome_of_mem {k : String} {kb : KeyBinding} :
    ∀ {kbs : List (String × KeyBinding)}, (k, kb) ∈ kbs → (kbLookup kbs k).isSome := by
  intro kbs
  induction kbs with
  | nil => intro h; cases h
  | cons p rest ih =>
    intro h
    obtain ⟨a, b⟩ := p
    simp only [kbLookup]
    by_cases hk : a = k
    · rw [if_pos hk]; rfl
    · rw [if_neg hk]
      rcases List.mem_cons.mp h with he | hm
      · cases he; exact absurd rfl hk
      · exact ih hm

lemma kbLookup_mem_nodup {k : String} {kb : KeyBinding} :
    ∀ {kbs : List (String × KeyBinding)}, (kbs.map Prod.fst).Nodup →
      (k, kb) ∈ kbs → kbLookup kbs k = some kb := by
  intro kbs
  induction kbs with
  | nil => intro _ h; cases h
  | cons p rest ih =>
    intro hN h
    obtain ⟨a, b⟩ := p
    simp only [List.map_cons, List.nodup_cons] at hN
    rcases List.mem_cons.mp h with he | hm
    · cases he; simp [kbLookup]
    · have hak : a ≠ k := by
        intro he; subst he
        exact hN.1 (List.mem_map.mpr ⟨(a, kb), hm, rfl⟩)
      simp only [kbLookup]
      rw [if_neg hak]
      exact ih hN.2 hm

lemma mem_of_kbLookup {k : String} {kb : KeyBinding} :
    ∀ {kbs : List (String × KeyBinding)}, kbLookup kbs k = some kb →
      (k, kb) ∈ kbs := by
  intro kbs
  induction kbs with
  | nil => intro h; simp [kbLookup] at h
  | cons p rest ih =>
    intro h
    obtain ⟨a, b⟩ := p
    simp only [kbLookup] at h
    by_cases hk : a = k
    · rw [if_pos hk] at h
      cases h; subst hk; exact List.mem_cons_self _ _
    · rw [if_neg hk] at h
      exact List.mem_cons_of_mem _ (ih h)

/-- `buildBindingList` fails with the `KeyError` of the first stale name. -/
lemma buildBindingList_stale {kbs : List (String × KeyBinding)}
    (keyData : List (String × Option String × Option String × Int))
    (h : ∃ r ∈ keyData, kbLookup kbs r.1 = none) :
    ∃ d, buildBindingList kbs keyData = Except.error (KMErr.keyError d) := by
  induction keyData with
  | nil => simp at h
  | cons r rest ih =>
    obtain ⟨k, b, dt, dir⟩ := r
    rcases h with ⟨r2, hmem, hnone⟩
    simp only [buildBindingList]
    cases hk : kbLookup kbs k with
    | none => exact ⟨k, rfl⟩
    | some kb =>
      rcases List.mem_cons.mp hmem with he | hr
      · subst he; simp only at hnone; rw [hnone] at hk; cases hk
      · obtain ⟨d, hd⟩ := ih ⟨r2, hr, hnone⟩
        rw [hd]
        exact ⟨d, rfl⟩

end Lemmas

/-- C7: if the externally supplied load callback raises an I/O error during
loadKeyMapping, every control's binding, device type and axis direction (the
whole `keyBindings` table) and the `axesInUse` list remain exactly as they
were before the call: a failed load leaves existing bindings untouched. -/
theorem c7_failed_load_preserves_bindings (env : Env) (s : KMState) :
    ∃ t, loadKeyMapping env s LoadOutcome.ioError = Except.ok t ∧
      t.keyBindings = s.keyBindings ∧ t.axesInUse = s.axesInUse := by
  refine ⟨if env.loadFileExists then showErrorDialogue s else s, rfl, ?_, ?_⟩ <;>
    by_cases h : env.loadFileExists <;> simp [h, showErrorDialogue]

/-- C9: if the load callback returns a key record whose control name is not
registered, loadKeyMapping raises a `KeyError` that propagates to its caller
(it is neither dropped nor handled by the `except IOError` branch, which in
the model cannot produce an `Except.error` at all). -/
theorem c9_stale_control_raises (env : Env) (s : KMState)
    (keyData : List (String × Option String × Option String × Int))
    (axisData : List (String × Rat))
    (h : ∃ r ∈ keyData, kbLookup s.keyBindings r.1 = none) :
    ∃ d, loadKeyMapping env s (LoadOutcome.ok keyData axisData) =
      Except.error (KMErr.keyError d) := by
  obtain ⟨d, hd⟩ := buildBindingList_stale keyData h
  refine ⟨d, ?_⟩
  simp only [loadKeyMapping]
  rw [hd]

/-- C9 witness. -/
theorem c9_stale_control_raises_witness :
    ∃ d, loadKeyMapping envNull twoControls
      (LoadOutcome.ok [("ghost", some "x", some "keyboard", 0)] []) =
      Except.error (KMErr.keyError d) :=
  c9_stale_control_raises envNull twoControls _ _
    ⟨("ghost", some "x", some "keyboard", 0), by decide, by decide⟩

section ClearLemmas

lemma axisClearStep_dir0 (bstr : String) (acc : List String × List AxisData)
    (a : AxisData) : axisClearStep 0 bstr acc a = (acc.1, acc.2 ++ [a]) := by
  simp only [axisClearStep]
  split
  · rw [if_neg (by decide), if_neg (by decide)]
  · rfl

lemma foldl_axisClearStep_dir0 (bstr : String) :
    ∀ (axes : List AxisData) (ks : List String) (as0 : List AxisData),
      axes.foldl (axisClearStep 0 bstr) (ks, as0) = (ks, as0 ++ axes) := by
  intro axes
  induction axes with
  | nil => intro ks as0; simp
  | cons a rest ih =>
    intro ks as0
    rw [List.foldl_cons, axisClearStep_dir0, ih]
    simp

end ClearLemmas

/-- C10: for every input whose name starts with "axis." (case-insensitive),
clearKeyEvent with direction 0 (the default) leaves the whole state — in
particular every control's binding and device type and every axis entry's
claimed directions — unchanged: only directions +1 and -1 can clear an axis
binding.  (The axis-table invariant, spec section 3, rules out entries with
no claimed direction, which the final pruning line would drop.) -/
theorem c10_axis_dir0_clear_noop (s : KMState) (b : String)
    (hAxis : isAxisBinding b = true) (hInv : axesInvariant s.axesInUse) :
    clearKeyEvent s (some b) 0 = Except.ok s := by
  have hfold := foldl_axisClearStep_dir0 (dropChars b 5) s.axesInUse [] []
  rw [List.nil_append] at hfold
  have hct : clearTargets s b 0 = ([], s.axesInUse) := by
    rw [clearTargets, if_pos hAxis, hfold]
  have hf : s.axesInUse.filter axisClaimed = s.axesInUse :=
    List.filter_eq_self.mpr hInv
  simp only [clearKeyEvent, hct, clearKeyFinish, clearKeysLoop, removeDevicesLoop]
  rw [hf]

/-- C10 witness: a direction-0 clear of the shared gamepad axis leaves the
axis-pair state untouched. -/
theorem c10_axis_dir0_clear_noop_witness :
    clearKeyEvent axisPairState (some "Axis.left_x") 0 = Except.ok axisPairState :=
  c10_axis_dir0_clear_noop axisPairState "Axis.left_x" (by decide)
    (by unfold axesInvariant; decide)

section CallbackLemmas

lemma callbackCheckMsg_none_iff (ty : KType) (cb : CallbackArg) :
    callbackCheckMsg ty cb = none ↔ cbRequirementMet ty cb := by
  cases ty with
  | heldKey => simp [callbackCheckMsg, cbRequirementMet]
  | eventPressed => cases cb <;> simp [callbackCheckMsg, cbRequirementMet]
  | eventReleased => cases cb <;> simp [callbackCheckMsg, cbRequirementMet]
  | eventPressedAndReleased =>
    cases cb with
    | absent => simp [callbackCheckMsg, cbRequirementMet]
    | single => simp [callbackCheckMsg, cbRequirementMet]
    | cblist cbs =>
      match cbs with
      | [] => simp [callbackCheckMsg, cbRequirementMet]
      | [a] => cases a <;> simp [callbackCheckMsg, cbRequirementMet]
      | a :: b :: rest =>
        cases a <;> cases b <;>
          simp [callbackCheckMsg, cbRequirementMet, Nat.succ_le_succ,
            Nat.not_lt.mpr (Nat.le_add_left 2 rest.length)]

end CallbackLemmas

/-- C6: given that the two preliminary clears succeed and the control is
registered (hypotheses h1-h3), bindKey raises an exception if and only if
the binding kind requires a callback and that callback is missing: pressed
and released require a supplied callback, pressed-and-released requires a
single callback or a pair of two non-None callbacks (the first two entries
of a supplied list or tuple), and held-type bindings never raise. -/
theorem c6_bindKey_raises_iff_callback_missing (env : Env) (s sA sB : KMState)
    (c : String) (b : Option String) (ty : KType) (cb : CallbackArg)
    (dt : Option String) (dir : Int) (kb0 : KeyBinding)
    (h1 : clearKeyEvent s b dir = Except.ok sA)
    (h2 : kbLookup sA.keyBindings c = some kb0)
    (h3 : clearKeyEvent sA kb0.binding kb0.axisDirection = Except.ok sB) :
    (∃ e, bindKey env s c b ty cb dt dir = Except.error e) ↔
      ¬ cbRequirementMet ty cb := by
  rw [← callbackCheckMsg_none_iff]
  simp only [bindKey, h1, h2, h3]
  cases hm : callbackCheckMsg ty cb with
  | some msg =>
    constructor
    · intro _ hc; cases hc
    · intro _; exact ⟨KMErr.cbMissing msg, rfl⟩
  | none =>
    constructor
    · rintro ⟨e, he⟩; cases he
    · intro hc; exact absurd rfl hc

/-- C6 witness: a pressed-kind bind with a missing callback errors (after
clears that change nothing: "y" has no holder and "c2" is unbound). -/
theorem c6_bindKey_raises_iff_callback_missing_witness :
    ∃ e, bindKey envNull twoControls "c2" (some "y") KType.eventPressed
      CallbackArg.absent (some "keyboard") 0 = Except.error e :=
  (c6_bindKey_raises_iff_callback_missing envNull twoControls twoControls
    twoControls "c2" (some "y") KType.eventPressed CallbackArg.absent
    (some "keyboard") 0 { baseKB with groupID := 2 } rfl rfl rfl).mpr
    (by simp [cbRequirementMet])

/-- C2 counterexample: with controls c1 and c2 both bound to the button "x"
under disjoint group masks, saving and then loading what was saved leaves c1
unbound — re-binding c2 during the load clears c1's identical binding — so
the round-trip does not restore every control's binding. -/
theorem c2_roundtrip_counterexample :
    (loadKeyMapping envNull twoControlsShared
        (LoadOutcome.ok (keySaveData twoControlsShared)
          (axisSaveData twoControlsShared))).map
      (fun t => ((kbLookup t.keyBindings "c1").map KeyBinding.binding,
                 (kbLookup t.keyBindings "c2").map KeyBinding.binding)) =
      Except.ok (some none, some (some "x")) ∧
    (kbLookup twoControlsShared.keyBindings "c1").map KeyBinding.binding =
      some (some "x") ∧
    Nat.land 1 2 = 0 := ⟨rfl, rfl, rfl⟩

/-- C3 counterexample: loadKeyMapping — an operation of the manager — run
from a state satisfying the invariant (no axis entries at all) creates an
axis entry with neither direction bound, so not every operation preserves
the invariant. -/
theorem c3_invariant_counterexample :
    (loadKeyMapping envNull baseState (LoadOutcome.ok [] [("x", 3/10)])).map
      (fun t => t.axesInUse.map axisClaimed) = Except.ok [false] ∧
    axesInvariant baseState.axesInUse :=
  ⟨rfl, by unfold axesInvariant; decide⟩

/-- C4 counterexample: after binding c2 to the axis input "Axis.left_x",
clearing that input with direction 0 leaves c2 still bound (the claim
demands it become unbound for every input). -/
theorem c4_roundtrip_counterexample :
    (bindKey envNull twoControls "c2" (some "Axis.left_x") KType.heldKey
        CallbackArg.absent (some "gamepad") 1).map
      (fun s1 => (clearKeyEvent s1 (some "Axis.left_x") 0).map
        (fun s2 => (kbLookup s2.keyBindings "c2").map KeyBinding.binding)) =
      Except.ok (Except.ok (some (some "Axis.left_x"))) := rfl

/-- C5 counterexample: c1 (group 1) holds "x"; binding c2 (group 2, masks
disjoint: 1 &&& 2 = 0) to "x" leaves c1 unbound, not still bound — the
input is not shared. -/
theorem c5_disjoint_share_counterexample :
    (bindKey envNull twoControls "c2" (some "x") KType.heldKey
        CallbackArg.absent (some "keyboard") 0).map
      (fun t => ((kbLookup t.keyBindings "c1").map KeyBinding.binding,
                 (kbLookup t.keyBindings "c2").map KeyBinding.binding)) =
      Except.ok (some none, some (some "x")) ∧
    (kbLookup twoControls.keyBindings "c1").map KeyBinding.binding =
      some (some "x") ∧
    Nat.land 1 2 = 0 := ⟨rfl, rfl, rfl⟩

/-- C8 counterexample: the polled axis reads 1 (absolute value above 0.5)
against a baseline sample of 3/4 (delta 1/4, not above 0.3; every quantity
is an exact binary float, so the source's float comparison agrees).  The
claim's disjunctive condition holds — `claimScan` fires — yet the
per-frame update synthesises no interception event: the state is returned
unchanged. -/
theorem c8_threshold_counterexample :
    updateAwaiting envNull c8CexState = Except.ok c8CexState ∧
    claimScan c8CexState c8CexState.dataNPList = some (c8Dev, "Axis.left_x", 1) := by
  constructor
  · norm_num [updateAwaiting, updateAwaitingScan, scanAxes, fireCond, ratAbs,
      c8CexState, c8Dev, baseState, envNull, List.find?]
  · norm_num [claimScan, claimFireCond, ratAbs, c8CexState, c8Dev, baseState,
      List.find?]
    decide

section NullLemmas

lemma kbLookup_cons (a : String) (b : KeyBinding) (l : List (String × KeyBinding))
    (k : String) : kbLookup ((a, b) :: l) k = if a = k then some b else kbLookup l k := rfl

lemma kbUpdate_cons (p : String × KeyBinding) (l : List (String × KeyBinding))
    (key : String) (f : KeyBinding → KeyBinding) :
    kbUpdate (p :: l) key f = (if p.1 = key then (p.1, f p.2) else p) :: kbUpdate l key f := rfl

lemma nullK_cons (p : String × KeyBinding) (l : List (String × KeyBinding))
    (ks : List String) :
    nullK (p :: l) ks = (if p.1 ∈ ks then (p.1, nullEntry p.2) else p) :: nullK l ks := rfl

lemma nullEntry_idem (kb : KeyBinding) : nullEntry (nullEntry kb) = nullEntry kb := rfl

lemma setFields_restore (kb : KeyBinding) :
    setFields kb.binding kb.deviceType kb.axisDirection (nullEntry kb) = kb := rfl

lemma setFields_self (kb : KeyBinding) :
    setFields kb.binding kb.deviceType kb.axisDirection kb = kb := rfl

lemma nullK_nil : ∀ l : List (String × KeyBinding), nullK l [] = l
  | [] => rfl
  | p :: rest => by
    rw [nullK_cons, if_neg (List.not_mem_nil p.1), nullK_nil rest]

lemma nullK_of_update :
    ∀ (l : List (String × KeyBinding)) (k : String) (ks : List String),
      nullK (kbUpdate l k nullEntry) ks = nullK l (k :: ks)
  | [], _, _ => rfl
  | (a, b) :: rest, k, ks => by
    rw [kbUpdate_cons]
    by_cases hak : a = k
    · rw [if_pos hak, nullK_cons, nullK_cons, nullK_of_update rest k ks]
      by_cases haks : a ∈ ks
      · rw [if_pos haks, if_pos (List.mem_cons_of_mem k haks), nullEntry_idem]
      · rw [if_neg haks, if_pos (List.mem_cons.mpr (Or.inl hak))]
    · rw [if_neg hak, nullK_cons, nullK_cons, nullK_of_update rest k ks]
      by_cases haks : a ∈ ks
      · rw [if_pos haks, if_pos (List.mem_cons_of_mem k haks)]
      · rw [if_neg haks, if_neg ?_]
        intro hmem
        rcases List.mem_cons.mp hmem with he | hm
        · exact hak he
        · exact haks hm

lemma kbLookup_kbUpdate :
    ∀ (l : List (String × KeyBinding)) (key : String) (f : KeyBinding → KeyBinding)
      (k : String),
      kbLookup (kbUpdate l key f) k =
        if key = k then (kbLookup l k).map f else kbLookup l k
  | [], key, f, k => by
    by_cases h : key = k <;> simp [kbUpdate, kbLookup, h]
  | (a, b) :: rest, key, f, k => by
    rw [kbUpdate_cons]
    by_cases hak : a = key
    · subst hak
      rw [if_pos rfl, kbLookup_cons, kbLookup_cons]
      by_cases hk : a = k
      · rw [if_pos hk, if_pos hk, if_pos hk]; rfl
      · rw [if_neg hk, if_neg hk, if_neg hk, kbLookup_kbUpdate rest a f k, if_neg hk]
    · rw [if_neg hak, kbLookup_cons, kbLookup_cons]
      by_cases hk : a = k
      · subst hk
        rw [if_pos rfl, if_pos rfl, if_neg (fun h => hak h.symm)]
      · rw [if_neg hk, if_neg hk, kbLookup_kbUpdate rest key f k]

lemma kbLookup_nullK :
    ∀ (l : List (String × KeyBinding)) (ks : List String) (k : String),
      kbLookup (nullK l ks) k =
        if k ∈ ks then (kbLookup l k).map nullEntry else kbLookup l k
  | [], ks, k => by
    by_cases h : k ∈ ks <;> simp [nullK, kbLookup, h]
  | (a, b) :: rest, ks, k => by
    rw [nullK_cons]
    by_cases haks : a ∈ ks
    · rw [if_pos haks, kbLookup_cons, kbLookup_cons]
      by_cases hk : a = k
      · subst hk
        rw [if_pos rfl, if_pos rfl, if_pos haks]; rfl
      · rw [if_neg hk, if_neg hk, kbLookup_nullK rest ks k]
    · rw [if_neg haks, kbLookup_cons, kbLookup_cons]
      by_cases hk : a = k
      · subst hk
        rw [if_pos rfl, if_pos rfl, if_neg haks]
      · rw [if_neg hk, if_neg hk, kbLookup_nullK rest ks k]

lemma nullK_not_mem :
    ∀ (l : List (String × KeyBinding)) (ks : List String),
      (∀ p ∈ l, p.1 ∉ ks) → nullK l ks = l
  | [], _, _ => rfl
  | p :: rest, ks, h => by
    rw [nullK_cons, if_neg (h p (List.mem_cons_self p rest)),
      nullK_not_mem rest ks (fun q hq => h q (List.mem_cons_of_mem p hq))]

lemma kbUpdate_not_mem :
    ∀ (l : List (String × KeyBinding)) (c : String) (f : KeyBinding → KeyBinding),
      (∀ p ∈ l, p.1 ≠ c) → kbUpdate l c f = l
  | [], _, _, _ => rfl
  | p :: rest, c, f, h => by
    rw [kbUpdate_cons, if_neg (h p (List.mem_cons_self p rest)),
      kbUpdate_not_mem rest c f (fun q hq => h q (List.mem_cons_of_mem p hq))]

lemma kbUpdate_no_change :
    ∀ (l : List (String × KeyBinding)) (c : String) (f : KeyBinding → KeyBinding),
      (∀ p ∈ l, p.1 = c → f p.2 = p.2) → kbUpdate l c f = l
  | [], _, _, _ => rfl
  | p :: rest, c, f, h => by
    rw [kbUpdate_cons,
      kbUpdate_no_change rest c f (fun q hq hqc => h q (List.mem_cons_of_mem p hq) hqc)]
    by_cases hc : p.1 = c
    · rw [if_pos hc, h p (List.mem_cons_self p rest) hc]
    · rw [if_neg hc]

lemma mem_nullK_of_mem {l : List (String × KeyBinding)} {k : String}
    {kb : KeyBinding} {ks : List String} (h : (k, kb) ∈ l) (hk : k ∈ ks) :
    (k, nullEntry kb) ∈ nullK l ks := by
  have := List.mem_map_of_mem
    (fun p : String × KeyBinding => if p.1 ∈ ks then (p.1, nullEntry p.2) else p) h
  simpa [hk, nullK] using this

end NullLemmas

section DeviceLemmas

lemma removeUsedDevice_keyBindings (s : KMState) (d : String) :
    (removeUsedDevice s d).keyBindings = s.keyBindings := by
  rw [removeUsedDevice]; split <;> rfl

lemma removeUsedDevice_axesClaims (s : KMState) (d : String) :
    axesClaims (removeUsedDevice s d).axesInUse = axesClaims s.axesInUse := by
  rw [removeUsedDevice]
  split
  · rfl
  · simp only [axesClaims, List.map_map]
    apply List.map_congr_left
    intro a _
    dsimp only [Function.comp]
    split <;> split <;> rfl

lemma addUsedDevice_keyBindings (env : Env) (s : KMState) (dt : String) :
    (addUsedDevice env s dt).1.keyBindings = s.keyBindings := by
  unfold addUsedDevice
  split
  · rfl
  · split <;> rfl

lemma addUsedDevice_axesClaims (env : Env) (s : KMState) (dt : String) :
    axesClaims (addUsedDevice env s dt).1.axesInUse = axesClaims s.axesInUse := by
  unfold addUsedDevice
  split
  · rfl
  · split
    · rfl
    · simp only [axesClaims, List.map_map]
      apply List.map_congr_left
      intro a _
      dsimp only [Function.comp]
      split <;> split <;> rfl

lemma removeDevicesLoop_spec :
    ∀ (dts : List (Option String)) (s : KMState) (bdl : List (Option String)),
      ((none : Option String) ∈ bdl ∨ dts = []) →
      ∃ s2, removeDevicesLoop s bdl dts = Except.ok s2 ∧
        s2.keyBindings = s.keyBindings ∧
        axesClaims s2.axesInUse = axesClaims s.axesInUse
  | [], s, bdl, _ => ⟨s, rfl, rfl, rfl⟩
  | dt :: rest, s, bdl, h => by
    have hb : (none : Option String) ∈ bdl := by
      rcases h with h | h
      · exact h
      · cases h
    simp only [removeDevicesLoop]
    by_cases hmem : dt ∈ bdl
    · rw [if_pos hmem]
      exact removeDevicesLoop_spec rest s bdl (Or.inl hb)
    · rw [if_neg hmem]
      cases dt with
      | none => exact absurd hb hmem
      | some d =>
        obtain ⟨s2, heq, h1, h2⟩ :=
          removeDevicesLoop_spec rest (removeUsedDevice s d) bdl (Or.inl hb)
        exact ⟨s2, heq, h1.trans (removeUsedDevice_keyBindings s d),
          h2.trans (removeUsedDevice_axesClaims s d)⟩

lemma removeDevicesLoop_ok :
    ∀ (dts : List (Option String)) (s : KMState) (bdl : List (Option String))
      (s2 : KMState), removeDevicesLoop s bdl dts = Except.ok s2 →
      s2.keyBindings = s.keyBindings ∧
      axesClaims s2.axesInUse = axesClaims s.axesInUse
  | [], s, bdl, s2, h => by
    cases h; exact ⟨rfl, rfl⟩
  | dt :: rest, s, bdl, s2, h => by
    simp only [removeDevicesLoop] at h
    by_cases hmem : dt ∈ bdl
    · rw [if_pos hmem] at h
      exact removeDevicesLoop_ok rest s bdl s2 h
    · rw [if_neg hmem] at h
      cases dt with
      | none => cases h
      | some d =>
        obtain ⟨h1, h2⟩ := removeDevicesLoop_ok rest (removeUsedDevice s d) bdl s2 h
        exact ⟨h1.trans (removeUsedDevice_keyBindings s d),
          h2.trans (removeUsedDevice_axesClaims s d)⟩

end DeviceLemmas

section ClaimsTransport

lemma axisClaimed_of_claims {a b : AxisData}
    (h2 : b.keyDescriptionPositive = a.keyDescriptionPositive)
    (h3 : b.keyDescriptionNegative = a.keyDescriptionNegative) :
    axisClaimed b = axisClaimed a := by
  simp [axisClaimed, h2, h3]

lemma axesClaims_filter_congr :
    ∀ {l l' : List AxisData}, axesClaims l = axesClaims l' →
      axesClaims (l.filter axisClaimed) = axesClaims (l'.filter axisClaimed)
  | [], [], _ => rfl
  | [], _ :: _, h => by cases h
  | _ :: _, [], h => by cases h
  | a :: l, a' :: l', h => by
    simp only [axesClaims, List.map_cons, List.cons.injEq, Prod.mk.injEq] at h
    have hcl : axisClaimed a' = axisClaimed a :=
      axisClaimed_of_claims h.1.2.1.symm h.1.2.2.symm
    rw [List.filter_cons, List.filter_cons, hcl]
    by_cases hq : axisClaimed a = true
    · rw [if_pos hq, if_pos hq]
      simp only [axesClaims, List.map_cons, List.cons.injEq, Prod.mk.injEq]
      exact ⟨h.1, axesClaims_filter_congr h.2⟩
    · simp only [Bool.not_eq_true] at hq
      rw [hq]
      simp only [Bool.false_eq_true, if_false]
      exact axesClaims_filter_congr h.2

lemma claimsOK_of_claims_eq {kbs : List (String × KeyBinding)} :
    ∀ {l l' : List AxisData}, axesClaims l = axesClaims l' →
      ClaimsOK kbs l → ClaimsOK kbs l'
  | [], [], _, _ => fun a ha => absurd ha (List.not_mem_nil a)
  | [], _ :: _, h, _ => by cases h
  | _ :: _, [], h, _ => by cases h
  | a :: l, a' :: l', h, hC => by
    simp only [axesClaims, List.map_cons, List.cons.injEq, Prod.mk.injEq] at h
    intro x hx
    rcases List.mem_cons.mp hx with he | hm
    · subst he
      have hhead := hC a (List.mem_cons_self a l)
      constructor
      · intro kd hkd
        obtain ⟨kb, b, h1, h2, h3, h4, h5⟩ := hhead.1 kd (h.1.2.1.trans hkd)
        exact ⟨kb, b, h1, h2, h3, h4.trans h.1.1, h5⟩
      · intro kd hkd
        obtain ⟨kb, b, h1, h2, h3, h4, h5⟩ := hhead.2 kd (h.1.2.2.trans hkd)
        exact ⟨kb, b, h1, h2, h3, h4.trans h.1.1, h5⟩
    · exact claimsOK_of_claims_eq h.2
        (fun y hy => hC y (List.mem_cons_of_mem a hy)) x hm

lemma claimsOK_filter {kbs : List (String × KeyBinding)} {l : List AxisData}
    {q : AxisData → Bool} (hC : ClaimsOK kbs l) : ClaimsOK kbs (l.filter q) :=
  fun a ha => hC a (List.mem_of_mem_filter ha)

lemma axesInvariant_of_claims_eq :
    ∀ {l l' : List AxisData}, axesClaims l = axesClaims l' →
      axesInvariant l → axesInvariant l'
  | [], [], _, _ => fun a ha => absurd ha (List.not_mem_nil a)
  | [], _ :: _, h, _ => by cases h
  | _ :: _, [], h, _ => by cases h
  | a :: l, a' :: l', h, hI => by
    simp only [axesClaims, List.map_cons, List.cons.injEq, Prod.mk.injEq] at h
    intro x hx
    rcases List.mem_cons.mp hx with he | hm
    · subst he
      rw [← axisClaimed_of_claims h.1.2.1 h.1.2.2]
      exact hI a (List.mem_cons_self a l)
    · exact axesInvariant_of_claims_eq h.2
        (fun y hy => hI y (List.mem_cons_of_mem a hy)) x hm

lemma axesInvariant_filter (l : List AxisData) :
    axesInvariant (l.filter axisClaimed) :=
  fun a ha => (List.mem_filter.mp ha).2

end ClaimsTransport

section ClearSpecLemmas

lemma clearKeysLoop_spec :
    ∀ (keys : List String) (kbs : List (String × KeyBinding)),
      (∀ k ∈ keys, (kbLookup kbs k).isSome = true) →
      ∃ dts, clearKeysLoop kbs keys = Except.ok (nullK kbs keys, dts) ∧
        (keys = [] → dts = [])
  | [], kbs, _ => ⟨[], by rw [nullK_nil]; rfl, fun _ => rfl⟩
  | k :: rest, kbs, h => by
    have hk := h k (List.mem_cons_self k rest)
    cases hkb : kbLookup kbs k with
    | none => rw [hkb] at hk; cases hk
    | some kb =>
      have hrest : ∀ k2 ∈ rest, (kbLookup (kbUpdate kbs k nullEntry) k2).isSome = true := by
        intro k2 hk2
        rw [kbLookup_kbUpdate]
        by_cases he : k = k2
        · rw [if_pos he, ← he, hkb]; rfl
        · rw [if_neg he]; exact h k2 (List.mem_cons_of_mem k hk2)
      obtain ⟨dts, hloop, _⟩ := clearKeysLoop_spec rest (kbUpdate kbs k nullEntry) hrest
      refine ⟨kb.deviceType :: dts, ?_, fun hc => by cases hc⟩
      simp only [clearKeysLoop, hkb, hloop, nullK_of_update]

lemma clearKeysLoop_ok_shape :
    ∀ (keys : List String) (kbs kbs2 : List (String × KeyBinding))
      (dts : List (Option String)),
      clearKeysLoop kbs keys = Except.ok (kbs2, dts) → kbs2 = nullK kbs keys
  | [], kbs, kbs2, dts, h => by
    simp only [clearKeysLoop] at h
    cases h
    rw [nullK_nil]
  | k :: rest, kbs, kbs2, dts, h => by
    simp only [clearKeysLoop] at h
    cases hkb : kbLookup kbs k with
    | none => rw [hkb] at h; cases h
    | some kb =>
      rw [hkb] at h
      cases hloop : clearKeysLoop (kbUpdate kbs k nullEntry) rest with
      | error e => rw [hloop] at h; cases h
      | ok pr =>
        rw [hloop] at h
        cases h
        rw [← nullK_of_update]
        exact clearKeysLoop_ok_shape rest (kbUpdate kbs k nullEntry) pr.1 pr.2 (by
          rw [hloop])

lemma axisClearStep_elem (d : Int) (bstr : String)
    (acc : List String × List AxisData) (a : AxisData) :
    axisClearStep d bstr acc a =
      (acc.1 ++ claimantsOf d bstr [a], acc.2 ++ [dirClear d bstr a]) := by
  simp only [axisClearStep, claimantsOf, dirClear]
  by_cases hax : a.axis = bstr
  · rw [if_pos hax, if_pos hax, if_pos hax]
    by_cases hd1 : d = -1
    · rw [if_pos hd1, if_pos hd1, if_pos hd1]
      cases a.keyDescriptionNegative <;> simp
    · rw [if_neg hd1, if_neg hd1, if_neg hd1]
      by_cases hd2 : d = 1
      · rw [if_pos hd2, if_pos hd2, if_pos hd2]
        cases a.keyDescriptionPositive <;> simp
      · rw [if_neg hd2, if_neg hd2, if_neg hd2]
        simp
  · rw [if_neg hax, if_neg hax, if_neg hax]
    simp

lemma claimantsOf_append (d : Int) (bstr : String) (l1 l2 : List AxisData) :
    claimantsOf d bstr (l1 ++ l2) = claimantsOf d bstr l1 ++ claimantsOf d bstr l2 := by
  induction l1 with
  | nil => simp [claimantsOf]
  | cons a rest ih => simp [claimantsOf, ih]

lemma foldl_axisClearStep_spec (d : Int) (bstr : String) :
    ∀ (axes : List AxisData) (ks : List String) (as0 : List AxisData),
      axes.foldl (axisClearStep d bstr) (ks, as0) =
        (ks ++ claimantsOf d bstr axes, as0 ++ axes.map (dirClear d bstr))
  | [], ks, as0 => by simp [claimantsOf]
  | a :: rest, ks, as0 => by
    rw [List.foldl_cons, axisClearStep_elem, foldl_axisClearStep_spec d bstr rest]
    simp [claimantsOf_append, claimantsOf]

lemma mem_claimantsOf {d : Int} {bstr : String} :
    ∀ {axes : List AxisData} {k : String}, k ∈ claimantsOf d bstr axes →
      ∃ a ∈ axes, a.axis = bstr ∧
        ((d = 1 ∧ a.keyDescriptionPositive = some k) ∨
         (d = -1 ∧ a.keyDescriptionNegative = some k))
  | [], k, h => by cases h
  | a :: rest, k, h => by
    simp only [claimantsOf] at h
    rcases List.mem_append.mp h with hh | ht
    · refine ⟨a, List.mem_cons_self a rest, ?_⟩
      by_cases hax : a.axis = bstr
      · rw [if_pos hax] at hh
        refine ⟨hax, ?_⟩
        by_cases hd1 : d = -1
        · rw [if_pos hd1] at hh
          cases hneg : a.keyDescriptionNegative with
          | none => rw [hneg] at hh; cases hh
          | some kd =>
            rw [hneg] at hh
            exact Or.inr ⟨hd1, congrArg some (List.mem_singleton.mp hh).symm⟩
        · rw [if_neg hd1] at hh
          by_cases hd2 : d = 1
          · rw [if_pos hd2] at hh
            cases hpos : a.keyDescriptionPositive with
            | none => rw [hpos] at hh; cases hh
            | some kd =>
              rw [hpos] at hh
              exact Or.inl ⟨hd2, congrArg some (List.mem_singleton.mp hh).symm⟩
          · rw [if_neg hd2] at hh; cases hh
      · rw [if_neg hax] at hh; cases hh
    · obtain ⟨a2, ha2, hrest⟩ := mem_claimantsOf ht
      exact ⟨a2, List.mem_cons_of_mem a ha2, hrest⟩

end ClearSpecLemmas

section ClearKeyEventSpec

lemma clearKeyFinish_spec (s1 : KMState) (keys : List String)
    (hlk : ∀ k ∈ keys, (kbLookup s1.keyBindings k).isSome = true) :
    ∃ t, clearKeyFinish s1 keys = Except.ok t ∧
      t.keyBindings = nullK s1.keyBindings keys ∧
      axesClaims t.axesInUse = axesClaims (s1.axesInUse.filter axisClaimed) := by
  obtain ⟨dts, hloop, hnil⟩ := clearKeysLoop_spec keys s1.keyBindings hlk
  have hbdl : (none : Option String) ∈
      (nullK s1.keyBindings keys).map (fun p => p.2.deviceType) ∨ dts = [] := by
    cases hh : keys with
    | nil => exact Or.inr (hnil hh)
    | cons k0 rest =>
      left
      have hk0 : k0 ∈ keys := by rw [hh]; exact List.mem_cons_self k0 rest
      have hs := hlk k0 hk0
      cases hkb : kbLookup s1.keyBindings k0 with
      | none => rw [hkb] at hs; cases hs
      | some kb =>
        have hmemN : (k0, nullEntry kb) ∈ nullK s1.keyBindings (k0 :: rest) :=
          mem_nullK_of_mem (mem_of_kbLookup hkb) (List.mem_cons_self k0 rest)
        exact List.mem_map.mpr ⟨(k0, nullEntry kb), hmemN, rfl⟩
  obtain ⟨s3, hrem, hkb3, hax3⟩ := removeDevicesLoop_spec dts
    { s1 with keyBindings := nullK s1.keyBindings keys }
    ((nullK s1.keyBindings keys).map (fun p => p.2.deviceType)) hbdl
  refine ⟨{ s3 with axesInUse := s3.axesInUse.filter axisClaimed }, ?_, ?_, ?_⟩
  · simp only [clearKeyFinish, hloop, hrem]
  · exact hkb3
  · exact axesClaims_filter_congr hax3

lemma clearTargets_nonaxis (s : KMState) (b : String) (d : Int)
    (hb : isAxisBinding b = false) :
    clearTargets s b d = (holdersOf s.keyBindings b, s.axesInUse) := by
  rw [clearTargets, hb]
  rfl

lemma clearTargets_axis (s : KMState) (b : String) (d : Int)
    (hb : isAxisBinding b = true) :
    clearTargets s b d = (claimantsOf d (dropChars b 5) s.axesInUse,
      s.axesInUse.map (dirClear d (dropChars b 5))) := by
  rw [clearTargets, if_pos hb, foldl_axisClearStep_spec]
  simp

lemma holdersOf_lookup_isSome (kbs : List (String × KeyBinding)) (b : String) :
    ∀ k ∈ holdersOf kbs b, (kbLookup kbs k).isSome = true := by
  intro k hk
  obtain ⟨p, hp, hpk⟩ := List.mem_map.mp hk
  obtain ⟨hpm, _⟩ := List.mem_filter.mp hp
  obtain ⟨a, bb⟩ := p
  cases hpk
  exact kbLookup_isSome_of_mem hpm

/-- Non-axis clearKeyEvent: every holder of the button is unbound, claimed
axis entries keep their claims, unclaimed ones are pruned. -/
lemma clearKeyEvent_nonaxis_spec (s : KMState) (b : String) (d : Int)
    (hb : isAxisBinding b = false) :
    ∃ t, clearKeyEvent s (some b) d = Except.ok t ∧
      t.keyBindings = nullK s.keyBindings (holdersOf s.keyBindings b) ∧
      axesClaims t.axesInUse = axesClaims (s.axesInUse.filter axisClaimed) := by
  obtain ⟨t, heq, h1, h2⟩ := clearKeyFinish_spec { s with axesInUse := s.axesInUse }
    (holdersOf s.keyBindings b) (holdersOf_lookup_isSome s.keyBindings b)
  refine ⟨t, ?_, h1, h2⟩
  simp only [clearKeyEvent, clearTargets_nonaxis s b d hb]
  exact heq

/-- Axis clearKeyEvent: the claimants of the requested direction are
unbound, matching entries lose that claimant, and unclaimed entries are
pruned. -/
lemma clearKeyEvent_axis_spec (s : KMState) (b : String) (d : Int)
    (hb : isAxisBinding b = true)
    (hlk : ∀ k ∈ claimantsOf d (dropChars b 5) s.axesInUse,
      (kbLookup s.keyBindings k).isSome = true) :
    ∃ t, clearKeyEvent s (some b) d = Except.ok t ∧
      t.keyBindings = nullK s.keyBindings (claimantsOf d (dropChars b 5) s.axesInUse) ∧
      axesClaims t.axesInUse = axesClaims
        (((s.axesInUse.map (dirClear d (dropChars b 5)))).filter axisClaimed) := by
  obtain ⟨t, heq, h1, h2⟩ := clearKeyFinish_spec
    { s with axesInUse := s.axesInUse.map (dirClear d (dropChars b 5)) }
    (claimantsOf d (dropChars b 5) s.axesInUse) hlk
  refine ⟨t, ?_, h1, h2⟩
  simp only [clearKeyEvent, clearTargets_axis s b d hb]
  exact heq

/-- Whatever a successful clearKeyEvent did to the dictionary, it nulled
some set of controls and left the rest alone. -/
lemma clearKeyEvent_ok_keyBindings (s : KMState) (b : Option String) (d : Int)
    (t : KMState) (h : clearKeyEvent s b d = Except.ok t) :
    ∃ ks, t.keyBindings = nullK s.keyBindings ks := by
  cases b with
  | none =>
    refine ⟨[], ?_⟩
    cases h
    rw [nullK_nil]
  | some bs =>
    simp only [clearKeyEvent, clearKeyFinish] at h
    cases hloop : clearKeysLoop s.keyBindings (clearTargets s bs d).1 with
    | error e => rw [hloop] at h; cases h
    | ok pr =>
      obtain ⟨p1, p2⟩ := pr
      rw [hloop] at h
      cases hrem : removeDevicesLoop
          { s with axesInUse := (clearTargets s bs d).2, keyBindings := p1 }
          (p1.map (fun p => p.2.deviceType)) p2 with
      | error e => simp only [hrem] at h; cases h
      | ok s3 =>
        simp only [hrem] at h
        cases h
        refine ⟨(clearTargets s bs d).1, ?_⟩
        have hk3 := (removeDevicesLoop_ok p2
          { s with axesInUse := (clearTargets s bs d).2, keyBindings := p1 }
          (p1.map (fun p => p.2.deviceType)) s3 hrem).1
        rw [hk3]
        exact clearKeysLoop_ok_shape (clearTargets s bs d).1 s.keyBindings p1 p2 hloop

end ClearKeyEventSpec

section BindKeyLemmas

lemma bindKey_ok_elim (env : Env) (s : KMState) (c : String) (b : Option String)
    (ty : KType) (cb : CallbackArg) (dt : Option String) (dir : Int) (t : KMState)
    (ht : bindKey env s c b ty cb dt dir = Except.ok t) :
    ∃ sA kb0 sB, clearKeyEvent s b dir = Except.ok sA ∧
      kbLookup sA.keyBindings c = some kb0 ∧
      clearKeyEvent sA kb0.binding kb0.axisDirection = Except.ok sB ∧
      callbackCheckMsg ty cb = none ∧
      t = bindKeyCommit env sB c b dt dir := by
  unfold bindKey at ht
  cases hA : clearKeyEvent s b dir with
  | error e => rw [hA] at ht; cases ht
  | ok sA =>
    simp only [hA] at ht
    cases hL : kbLookup sA.keyBindings c with
    | none => simp only [hL] at ht; cases ht
    | some kb0 =>
      simp only [hL] at ht
      cases hB : clearKeyEvent sA kb0.binding kb0.axisDirection with
      | error e => simp only [hB] at ht; cases ht
      | ok sB =>
        simp only [hB] at ht
        cases hM : callbackCheckMsg ty cb with
        | some m => simp only [hM] at ht; cases ht
        | none =>
          simp only [hM] at ht
          cases ht
          refine ⟨sA, kb0, sB, ?_, hL, hB, ?_, rfl⟩
          · first
            | exact hA
            | rfl
          · first
            | exact hM
            | rfl

lemma bindKeyCommit_keyBindings (env : Env) (sB : KMState) (c : String)
    (b : Option String) (dt : Option String) (dir : Int) :
    (bindKeyCommit env sB c b dt dir).keyBindings =
      kbUpdate sB.keyBindings c (setFields b dt dir) := by
  unfold bindKeyCommit
  cases b with
  | none => rfl
  | some bs =>
    cases dt with
    | none => rfl
    | some dtv =>
      dsimp only
      split
      · split
        · simp [addUsedDevice_keyBindings]
        · simp [addUsedDevice_keyBindings]
      · simp [addUsedDevice_keyBindings]

end BindKeyLemmas

/-- C4 amended: for every control and every non-axis input, bindKey followed
immediately by clearing that input with direction 0 leaves the control
unbound (binding `None`).  For axis inputs the direction-0 clear is a no-op
(claim C10), which is what the counterexample exhibits. -/
theorem c4_nonaxis_bind_clear_unbinds (env : Env) (s : KMState) (c : String)
    (b : String) (ty : KType) (cb : CallbackArg) (dt : Option String)
    (dir : Int) (s1 s2 : KMState)
    (hNonAxis : isAxisBinding b = false)
    (hBind : bindKey env s c (some b) ty cb dt dir = Except.ok s1)
    (hClear : clearKeyEvent s1 (some b) 0 = Except.ok s2) :
    (kbLookup s2.keyBindings c).map KeyBinding.binding = some none := by
  obtain ⟨sA, kb0, sB, hA, hL, hB, hM, ht⟩ :=
    bindKey_ok_elim env s c (some b) ty cb dt dir s1 hBind
  have h1kb : ∃ kbc, kbLookup s1.keyBindings c = some kbc ∧
      kbc.binding = some b := by
    subst ht
    rw [bindKeyCommit_keyBindings, kbLookup_kbUpdate, if_pos rfl]
    obtain ⟨ks, hshape⟩ :=
      clearKeyEvent_ok_keyBindings sA kb0.binding kb0.axisDirection sB hB
    rw [hshape, kbLookup_nullK]
    by_cases hc : c ∈ ks
    · rw [if_pos hc, hL]
      exact ⟨_, rfl, rfl⟩
    · rw [if_neg hc, hL]
      exact ⟨_, rfl, rfl⟩
  obtain ⟨kbc, hlc, hbc⟩ := h1kb
  obtain ⟨t, hceq, hkb, _⟩ := clearKeyEvent_nonaxis_spec s1 b 0 hNonAxis
  rw [hClear] at hceq
  cases hceq
  have hmem : c ∈ holdersOf s1.keyBindings b :=
    List.mem_map.mpr ⟨(c, kbc),
      List.mem_filter.mpr ⟨mem_of_kbLookup hlc, by simp [hbc]⟩, rfl⟩
  rw [hkb, kbLookup_nullK, if_pos hmem, hlc]
  rfl

/-- C4 amended witness: bind `c2` to "y", clear "y" with direction 0, and
`c2` is unbound. -/
theorem c4_nonaxis_bind_clear_unbinds_witness :
    (kbLookup c4W2.keyBindings "c2").map KeyBinding.binding = some none :=
  c4_nonaxis_bind_clear_unbinds envNull twoControls "c2" "y" KType.heldKey
    CallbackArg.absent (some "keyboard") 0 c4W1 c4W2 (by decide) rfl rfl

/-- C5 amended: if a control `c1` holds a non-axis input and a different
control `c2` is bound to that input via bindKey, then afterwards `c1` is
unbound and `c2` holds the input — regardless of the two group masks, the
input is not shared. -/
theorem c5_bind_steals_nonaxis_input (env : Env) (s : KMState)
    (c1 c2 : String) (b : String) (ty : KType) (cb : CallbackArg)
    (dt : Option String) (dir : Int) (t : KMState) (kb1 : KeyBinding)
    (hNe : c1 ≠ c2) (hNonAxis : isAxisBinding b = false)
    (hc1 : kbLookup s.keyBindings c1 = some kb1)
    (hb1 : kb1.binding = some b)
    (hBind : bindKey env s c2 (some b) ty cb dt dir = Except.ok t) :
    (kbLookup t.keyBindings c1).map KeyBinding.binding = some none ∧
    (kbLookup t.keyBindings c2).map KeyBinding.binding = some (some b) := by
  obtain ⟨sA, kb0, sB, hA, hL, hB, hM, ht⟩ :=
    bindKey_ok_elim env s c2 (some b) ty cb dt dir t hBind
  obtain ⟨tA, hceq, hkbA, _⟩ := clearKeyEvent_nonaxis_spec s b dir hNonAxis
  rw [hA] at hceq
  cases hceq
  have hmem1 : c1 ∈ holdersOf s.keyBindings b :=
    List.mem_map.mpr ⟨(c1, kb1),
      List.mem_filter.mpr ⟨mem_of_kbLookup hc1, by simp [hb1]⟩, rfl⟩
  have hA1 : kbLookup sA.keyBindings c1 = some (nullEntry kb1) := by
    rw [hkbA, kbLookup_nullK, if_pos hmem1, hc1]
    rfl
  obtain ⟨ks, hshape⟩ :=
    clearKeyEvent_ok_keyBindings sA kb0.binding kb0.axisDirection sB hB
  have hB1 : ∃ kbx, kbLookup sB.keyBindings c1 = some kbx ∧ kbx.binding = none := by
    rw [hshape, kbLookup_nullK]
    by_cases hc : c1 ∈ ks
    · rw [if_pos hc, hA1]
      exact ⟨_, rfl, rfl⟩
    · rw [if_neg hc, hA1]
      exact ⟨_, rfl, rfl⟩
  obtain ⟨kbx, hBx, hbx⟩ := hB1
  subst ht
  constructor
  · rw [bindKeyCommit_keyBindings, kbLookup_kbUpdate,
      if_neg (fun h => hNe h.symm), hBx]
    simp [hbx]
  · rw [bindKeyCommit_keyBindings, kbLookup_kbUpdate, if_pos rfl]
    have hB2 : ∃ kby, kbLookup sB.keyBindings c2 = some kby := by
      rw [hshape, kbLookup_nullK]
      by_cases hc : c2 ∈ ks
      · rw [if_pos hc, hL]
        exact ⟨_, rfl⟩
      · rw [if_neg hc, hL]
        exact ⟨_, rfl⟩
    obtain ⟨kby, hBy⟩ := hB2
    rw [hBy]
    rfl

/-- C5 amended witness: after binding `c2` to "x" (held by `c1`, masks
disjoint), `c1` is unbound and `c2` holds "x". -/
theorem c5_bind_steals_nonaxis_input_witness :
    (kbLookup c5W.keyBindings "c1").map KeyBinding.binding = some none ∧
    (kbLookup c5W.keyBindings "c2").map KeyBinding.binding = some (some "x") :=
  c5_bind_steals_nonaxis_input envNull twoControls "c1" "c2" "x" KType.heldKey
    CallbackArg.absent (some "keyboard") 0 c5W
    { baseKB with binding := some "x", deviceType := some "keyboard" }
    (by decide) (by decide) rfl rfl rfl

section InvariantLemmas

lemma clearKeyFinish_ok_axes (s1 : KMState) (keys : List String) (t : KMState)
    (h : clearKeyFinish s1 keys = Except.ok t) :
    ∃ l : List AxisData, t.axesInUse = l.filter axisClaimed := by
  unfold clearKeyFinish at h
  cases hloop : clearKeysLoop s1.keyBindings keys with
  | error e => rw [hloop] at h; cases h
  | ok pr =>
    obtain ⟨p1, p2⟩ := pr
    simp only [hloop] at h
    cases hrem : removeDevicesLoop { s1 with keyBindings := p1 }
        (p1.map (fun p => p.2.deviceType)) p2 with
    | error e => simp only [hrem] at h; cases h
    | ok s3 =>
      simp only [hrem] at h
      cases h
      exact ⟨s3.axesInUse, rfl⟩

lemma clearKeyEvent_preserves_invariant (s : KMState) (b : Option String)
    (d : Int) (t : KMState) (hInv : axesInvariant s.axesInUse)
    (h : clearKeyEvent s b d = Except.ok t) : axesInvariant t.axesInUse := by
  cases b with
  | none => cases h; exact hInv
  | some bs =>
    simp only [clearKeyEvent] at h
    obtain ⟨l, hl⟩ := clearKeyFinish_ok_axes _ _ t h
    rw [hl]
    exact axesInvariant_filter l

lemma axisClaimed_claimAxis (a : AxisData) (kd : String) (dir : Int)
    (dev : Option Nat) (dt : String) (h : axisClaimed a = true) :
    axisClaimed (claimAxis a kd dir dev dt) = true := by
  unfold claimAxis
  split
  · simp [axisClaimed]
  · split
    · simp [axisClaimed]
    · exact h

lemma axisClaimed_claimAxis_fresh (a : AxisData) (kd : String) (dir : Int)
    (dev : Option Nat) (dt : String) (hdir : dir ≠ 0) :
    axisClaimed (claimAxis a kd dir dev dt) = true := by
  unfold claimAxis
  rcases lt_trichotomy dir 0 with hlt | hz | hgt
  · rw [if_neg (by omega), if_pos hlt]
    simp [axisClaimed]
  · exact absurd hz hdir
  · rw [if_pos hgt]
    simp [axisClaimed]

lemma bindKeyCommit_axesInvariant (env : Env) (sB : KMState) (c : String)
    (b : Option String) (dt : Option String) (dir : Int)
    (hInv : axesInvariant sB.axesInUse)
    (hdir : ∀ bs, b = some bs → isAxisBinding bs = true → dir ≠ 0) :
    axesInvariant (bindKeyCommit env sB c b dt dir).axesInUse := by
  unfold bindKeyCommit
  cases b with
  | none => exact hInv
  | some bs =>
    cases dt with
    | none => exact hInv
    | some dtv =>
      dsimp only
      have hInvC : axesInvariant
          { sB with keyBindings :=
            kbUpdate sB.keyBindings c (setFields (some bs) (some dtv) dir) }.axesInUse :=
        hInv
      have hInvD : axesInvariant (addUsedDevice env
          { sB with keyBindings :=
            kbUpdate sB.keyBindings c (setFields (some bs) (some dtv) dir) }
          dtv).1.axesInUse :=
        axesInvariant_of_claims_eq (addUsedDevice_axesClaims env _ dtv).symm hInvC
      by_cases hax : isAxisBinding bs = true
      · rw [if_pos hax]
        split
        · intro a ha
          obtain ⟨a0, ha0, hfa⟩ := List.mem_map.mp ha
          subst hfa
          split
          · exact axisClaimed_claimAxis a0 c dir _ dtv (hInvD a0 ha0)
          · exact hInvD a0 ha0
        · intro a ha
          rcases List.mem_append.mp ha with hm | hm
          · obtain ⟨a0, ha0, hfa⟩ := List.mem_map.mp hm
            subst hfa
            split
            · exact axisClaimed_claimAxis a0 c dir _ dtv (hInvD a0 ha0)
            · exact hInvD a0 ha0
          · rcases List.mem_singleton.mp hm with rfl
            exact axisClaimed_claimAxis_fresh _ c dir _ dtv (hdir bs rfl hax)
      · rw [if_neg hax]
        exact hInvD

end InvariantLemmas

/-- C3 amended: (1) clearKeyEvent preserves the invariant that every axis
entry has at least one bound direction (its final line prunes unclaimed
entries); (2) bindKey preserves it provided an axis binding comes with a
nonzero direction (a direction-0 axis bind can append an unclaimed entry,
and loadKeyMapping violates the invariant outright — the counterexample);
(3) an entry is removed exactly when both directions become unbound: on the
axis pair, clearing the positive direction leaves the entry (claiming only
the negative control), and then clearing the negative direction removes it. -/
theorem c3_axis_entry_invariant_amended :
    (∀ (s : KMState) (b : Option String) (d : Int) (t : KMState),
        axesInvariant s.axesInUse → clearKeyEvent s b d = Except.ok t →
        axesInvariant t.axesInUse) ∧
    (∀ (env : Env) (s : KMState) (c : String) (b : Option String) (ty : KType)
        (cb : CallbackArg) (dt : Option String) (dir : Int) (t : KMState),
        axesInvariant s.axesInUse →
        (∀ bs, b = some bs → isAxisBinding bs = true → dir ≠ 0) →
        bindKey env s c b ty cb dt dir = Except.ok t →
        axesInvariant t.axesInUse) ∧
    ((clearKeyEvent axisPairState (some "Axis.left_x") 1).map
        (fun u => u.axesInUse.map
          (fun a => (a.axis, a.keyDescriptionPositive, a.keyDescriptionNegative))) =
      Except.ok [("left_x", none, some "cn")]) ∧
    ((clearKeyEvent c3W (some "Axis.left_x") (-1)).map
        (fun u => u.axesInUse) = Except.ok []) := by
  refine ⟨clearKeyEvent_preserves_invariant, ?_, rfl, rfl⟩
  intro env s c b ty cb dt dir t hInv hdir hBind
  obtain ⟨sA, kb0, sB, hA, hL, hB, hM, ht⟩ :=
    bindKey_ok_elim env s c b ty cb dt dir t hBind
  subst ht
  have hInvA := clearKeyEvent_preserves_invariant s b dir sA hInv hA
  have hInvB := clearKeyEvent_preserves_invariant sA kb0.binding
    kb0.axisDirection sB hInvA hB
  exact bindKeyCommit_axesInvariant env sB c b dt dir hInvB hdir

/-- C3 amended witness: re-binding `cp` on the claimed axis pair (direction
+1, nonzero) preserves the invariant. -/
theorem c3_axis_entry_invariant_amended_witness : axesInvariant c3WB.axesInUse :=
  c3_axis_entry_invariant_amended.2.1 envNull axisPairState "cp"
    (some "Axis.left_x") KType.heldKey CallbackArg.absent (some "gamepad") 1 c3WB
    (by unfold axesInvariant; decide)
    (by intro bs hbs _; cases hbs; decide) rfl

section ConflictScanLemmas

lemma conflictScan_eq_foldl (kbs : List (String × KeyBinding))
    (axes : List AxisData) (kbb : String) (g : Nat) (cand : String) (v : Int) :
    conflictScan kbs axes kbb g cand v =
      kbs.foldl (conflictStep axes kbb g cand v) none := rfl

lemma conflictStep_foldl_isSome (axes : List AxisData) (kbb : String) (g : Nat)
    (cand : String) (v : Int) :
    ∀ (kbs : List (String × KeyBinding)) (acc : Option String),
      (kbs.foldl (conflictStep axes kbb g cand v) acc).isSome =
        (acc.isSome || kbs.any (fun p => conflictHit axes kbb g cand v p))
  | [], acc => by simp
  | p :: l, acc => by
    rw [List.foldl_cons, List.any_cons,
      conflictStep_foldl_isSome axes kbb g cand v l _]
    unfold conflictStep
    by_cases hc : p.2.binding = some cand ∧ p.1 ≠ kbb ∧
        Nat.land p.2.groupID g ≠ 0
    · rw [if_pos hc]
      by_cases ha : isAxisBinding cand = true
      · rw [if_pos ha]
        by_cases hd : axisDirMatch axes p.1 v = true
        · rw [if_pos hd]
          simp [conflictHit, hc, ha, hd]
        · rw [if_neg hd]
          simp only [Bool.not_eq_true] at hd
          simp [conflictHit, ha, hd]
      · rw [if_neg ha]
        simp only [Bool.not_eq_true] at ha
        simp [conflictHit, hc, ha]
    · rw [if_neg hc]
      simp [conflictHit, hc]

lemma conflictStep_foldl_some (axes : List AxisData) (kbb : String) (g : Nat)
    (cand : String) (v : Int) :
    ∀ (kbs : List (String × KeyBinding)) (acc : Option String) (c : String),
      kbs.foldl (conflictStep axes kbb g cand v) acc = some c →
      acc = some c ∨
        ∃ p ∈ kbs, p.1 = c ∧ conflictHit axes kbb g cand v p = true
  | [], acc, c => fun h => Or.inl h
  | p :: l, acc, c => fun h => by
    rw [List.foldl_cons] at h
    rcases conflictStep_foldl_some axes kbb g cand v l _ c h with
      h1 | ⟨q, hq, hqc, hhit⟩
    · unfold conflictStep at h1
      by_cases hc : p.2.binding = some cand ∧ p.1 ≠ kbb ∧
          Nat.land p.2.groupID g ≠ 0
      · rw [if_pos hc] at h1
        by_cases ha : isAxisBinding cand = true
        · rw [if_pos ha] at h1
          by_cases hd : axisDirMatch axes p.1 v = true
          · rw [if_pos hd] at h1
            refine Or.inr ⟨p, List.mem_cons_self p l, Option.some.inj h1, ?_⟩
            simp [conflictHit, hc, ha, hd]
          · rw [if_neg hd] at h1
            exact Or.inl h1
        · rw [if_neg ha] at h1
          refine Or.inr ⟨p, List.mem_cons_self p l, Option.some.inj h1, ?_⟩
          simp only [Bool.not_eq_true] at ha
          simp [conflictHit, hc, ha]
      · rw [if_neg hc] at h1
        exact Or.inl h1
    · exact Or.inr ⟨q, List.mem_cons_of_mem p hq, hqc, hhit⟩

lemma conflictScan_isSome_iff (kbs : List (String × KeyBinding))
    (axes : List AxisData) (kbb : String) (g : Nat) (cand : String) (v : Int) :
    (conflictScan kbs axes kbb g cand v).isSome = true ↔
      ∃ p ∈ kbs, conflictHit axes kbb g cand v p = true := by
  rw [conflictScan_eq_foldl, conflictStep_foldl_isSome]
  simp [List.any_eq_true]

lemma conflictScan_some_mem (kbs : List (String × KeyBinding))
    (axes : List AxisData) (kbb : String) (g : Nat) (cand : String) (v : Int)
    (c : String) (h : conflictScan kbs axes kbb g cand v = some c) :
    ∃ p ∈ kbs, p.1 = c ∧ conflictHit axes kbb g cand v p = true := by
  rw [conflictScan_eq_foldl] at h
  rcases conflictStep_foldl_some axes kbb g cand v kbs none c h with h1 | h2
  · cases h1
  · exact h2

end ConflictScanLemmas

/-- C1: finalising a pending rebind candidate reports a conflict exactly
when some other control's binding equals the candidate with overlapping
group masks (for an axis candidate, only when the value's sign matches a
direction that control claims): on a conflict the manager opens the
conflict dialogue recording a conflicting control, otherwise it commits via
finishKeyRelease.  In particular on the concrete pair of controls sharing
candidate "x", overlapping masks open the conflict dialogue naming `c1` and
disjoint masks commit the binding without conflict. -/
theorem c1_conflict_exact (env : Env) (s : KMState) (key kbb cand : String)
    (boundKb : KeyBinding)
    (hVis : s.bindingDialogueVisible = true)
    (hKbb : s.keyBeingBound = some kbb)
    (hInt : s.lastKeyInterception = some cand)
    (hDt : s.lastKeyInterceptionDeviceType.isSome = true)
    (hLook : kbLookup s.keyBindings kbb = some boundKb) :
    ((∃ p ∈ s.keyBindings, conflictHit s.axesInUse kbb boundKb.groupID cand
          s.lastKeyInterceptionValue p = true) →
        ∃ c, (∃ p ∈ s.keyBindings, p.1 = c ∧ conflictHit s.axesInUse kbb
            boundKb.groupID cand s.lastKeyInterceptionValue p = true) ∧
          keyRelease env s key = Except.ok (handleBindingConflict s c)) ∧
    ((¬ ∃ p ∈ s.keyBindings, conflictHit s.axesInUse kbb boundKb.groupID cand
          s.lastKeyInterceptionValue p = true) →
        keyRelease env s key = finishKeyRelease env s) ∧
    ((keyRelease envNull c1Over "x").map
        (fun t => (t.conflictDialogueVisible, t.currentConflict)) =
      Except.ok (true, some "c1")) ∧
    ((keyRelease envNull c1Dis "x").map
        (fun t => (t.conflictDialogueVisible,
          (kbLookup t.keyBindings "c2").map (fun kb => kb.binding))) =
      Except.ok (false, some (some "x"))) := by
  obtain ⟨dtv, hdtv⟩ := Option.isSome_iff_exists.mp hDt
  have hg : keyReleaseGuard s key = true := by
    unfold keyReleaseGuard
    rw [hInt]
    rfl
  have hred : keyRelease env s key =
      (match conflictScan s.keyBindings s.axesInUse kbb boundKb.groupID cand
          s.lastKeyInterceptionValue with
      | some c => Except.ok (handleBindingConflict s c)
      | none => finishKeyRelease env s) := by
    unfold keyRelease
    rw [hVis, hKbb]
    simp only [hg, hInt, hdtv, hLook, Option.isNone_some, Option.getD_some,
      Bool.false_eq_true, if_false, if_true]
  refine ⟨?_, ?_, rfl, rfl⟩
  · intro hex
    have hs : (conflictScan s.keyBindings s.axesInUse kbb boundKb.groupID cand
        s.lastKeyInterceptionValue).isSome = true :=
      (conflictScan_isSome_iff _ _ _ _ _ _).mpr hex
    obtain ⟨c, hc⟩ := Option.isSome_iff_exists.mp hs
    refine ⟨c, conflictScan_some_mem _ _ _ _ _ _ c hc, ?_⟩
    rw [hred, hc]
  · intro hex
    have hs : conflictScan s.keyBindings s.axesInUse kbb boundKb.groupID cand
        s.lastKeyInterceptionValue = none := by
      rcases hscan : conflictScan s.keyBindings s.axesInUse kbb boundKb.groupID
          cand s.lastKeyInterceptionValue with _ | c
      · rfl
      · exact absurd ((conflictScan_isSome_iff _ _ _ _ _ _).mp
          (by rw [hscan]; rfl)) hex
    rw [hred, hs]

/-- C1 witness: on the disjoint-mask state no control scores a conflict
hit, so keyRelease commits the candidate. -/
theorem c1_conflict_exact_witness :
    keyRelease envNull c1Dis "x" = finishKeyRelease envNull c1Dis :=
  (c1_conflict_exact envNull c1Dis "x" "c2" "x" { baseKB with groupID := 2 }
    rfl rfl rfl rfl rfl).2.1 (by decide)

section AwaitingScanLemmas

lemma scanAxes_eq (tests : List (String × Rat)) :
    ∀ axes : List (String × Rat),
      scanAxes (some tests) axes =
        Except.ok (axes.find?
          (fun p => p.1 ≠ "Axis.none" && fireCond tests p.1 p.2))
  | [] => rfl
  | (axisId, value) :: rest => by
    unfold scanAxes
    by_cases hn : axisId = "Axis.none"
    · rw [if_pos hn, scanAxes_eq tests rest,
        List.find?_cons_of_neg _ (by simp [hn])]
    · rw [if_neg hn]
      dsimp only
      by_cases hf : fireCond tests axisId value = true
      · rw [if_pos hf, List.find?_cons_of_pos _ (by simp [hn, hf])]
      · rw [if_neg hf, scanAxes_eq tests rest,
          List.find?_cons_of_neg _ (by simp [hn, hf])]

lemma updateAwaitingScan_eq (s : KMState) :
    ∀ npl : List InputDev,
      (∀ dev ∈ npl,
        (s.deviceAxisTestValues.find? (fun p => p.1 = dev.devId)).isSome = true) →
      updateAwaitingScan s npl =
        Except.ok ((scanOrder npl).find?
          (fun t => codeFireCond s t.1 t.2.1 t.2.2))
  | [] => fun _ => rfl
  | dev :: rest => fun hDevs => by
    obtain ⟨tl, htl⟩ := Option.isSome_iff_exists.mp
      (hDevs dev (List.mem_cons_self dev rest))
    have hrest := updateAwaitingScan_eq s rest
      (fun d hd => hDevs d (List.mem_cons_of_mem dev hd))
    unfold updateAwaitingScan
    rw [htl, Option.map_some', scanAxes_eq tl.2 dev.axes]
    have hso : scanOrder (dev :: rest) =
        dev.axes.map (fun p => (dev, p.1, p.2)) ++ scanOrder rest :=
      List.flatMap_cons dev rest _
    rw [hso, List.find?_append, List.find?_map]
    have hpred : ((fun t : InputDev × String × Rat =>
          codeFireCond s t.1 t.2.1 t.2.2) ∘
        (fun p : String × Rat => (dev, p.1, p.2))) =
        (fun p : String × Rat => p.1 ≠ "Axis.none" && fireCond tl.2 p.1 p.2) := by
      funext p
      simp [Function.comp, codeFireCond, htl]
    rw [hpred]
    cases hfind : dev.axes.find?
        (fun p => p.1 ≠ "Axis.none" && fireCond tl.2 p.1 p.2) with
    | none =>
      simp only [Option.map_none', Option.none_or]
      exact hrest
    | some pv =>
      obtain ⟨a, v⟩ := pv
      rfl

end AwaitingScanLemmas

/-- C8 amended: while the binding dialogue is visible — provided every
polled capture device has a baseline-sample entry — the per-frame update
synthesises the interception and release events for the FIRST axis in
device order satisfying the code's firing test (no baseline sample and
absolute value above 0.5, or a baseline sample and a difference from it
above 0.3; `Axis.none` skipped) and returns for that tick, producing at
most one synthetic event per frame; if no axis fires the state is
unchanged. -/
theorem c8_awaiting_first_axis_amended (env : Env) (s : KMState)
    (hVis : s.bindingDialogueVisible = true)
    (hDevs : ∀ dev ∈ s.dataNPList,
      (s.deviceAxisTestValues.find? (fun p => p.1 = dev.devId)).isSome = true) :
    updateAwaiting env s =
      match (scanOrder s.dataNPList).find?
          (fun t => codeFireCond s t.1 t.2.1 t.2.2) with
      | none => Except.ok s
      | some (dev, axisId, value) =>
        keyRelease env
          (keyInterception s (some (getDeviceTypeString dev.devClass))
            axisId value)
          axisId := by
  unfold updateAwaiting
  rw [hVis, if_pos rfl, updateAwaitingScan_eq s s.dataNPList hDevs]
  cases hfind : (scanOrder s.dataNPList).find?
      (fun t => codeFireCond s t.1 t.2.1 t.2.2) with
  | none => rfl
  | some t =>
    obtain ⟨dev, a, v⟩ := t
    rfl

/-- C8 amended witness: on the baseline-3/4 state no axis fires (the
delta from the baseline is 1/4, below 3/10), and the update leaves the
state unchanged. -/
theorem c8_awaiting_first_axis_amended_witness :
    updateAwaiting envNull c8CexState =
      match (scanOrder c8CexState.dataNPList).find?
          (fun t => codeFireCond c8CexState t.1 t.2.1 t.2.2) with
      | none => Except.ok c8CexState
      | some (dev, axisId, value) =>
        keyRelease envNull
          (keyInterception c8CexState (some (getDeviceTypeString dev.devClass))
            axisId value)
          axisId :=
  c8_awaiting_first_axis_amended envNull c8CexState rfl
    (by
      intro dev hd
      rcases List.mem_singleton.mp hd with rfl
      rfl)

section RoundTripLemmas

lemma kbUpdate_comp :
    ∀ (l : List (String × KeyBinding)) (c : String)
      (f g : KeyBinding → KeyBinding),
      kbUpdate (kbUpdate l c f) c g = kbUpdate l c (fun x => g (f x))
  | [], _, _, _ => rfl
  | p :: rest, c, f, g => by
    rw [kbUpdate_cons, kbUpdate_cons, kbUpdate_cons, kbUpdate_comp rest c f g]
    by_cases hc : p.1 = c <;> simp [hc]

lemma mem_unique_of_nodup {kbs : List (String × KeyBinding)} {c : String}
    {x y : KeyBinding} (hNodup : (kbs.map Prod.fst).Nodup)
    (hx : (c, x) ∈ kbs) (hy : (c, y) ∈ kbs) : x = y :=
  Option.some.inj ((kbLookup_mem_nodup hNodup hx).symm.trans
    (kbLookup_mem_nodup hNodup hy))

lemma nullK_all_eq :
    ∀ (l : List (String × KeyBinding)) (ks : List String) (c : String),
      (∀ k ∈ ks, k = c) → c ∈ ks → nullK l ks = kbUpdate l c nullEntry
  | [], _, _, _, _ => rfl
  | p :: rest, ks, c, hks, hc => by
    rw [nullK_cons, kbUpdate_cons, nullK_all_eq rest ks c hks hc]
    by_cases hpc : p.1 = c
    · rw [if_pos (hpc ▸ hc), if_pos hpc]
    · rw [if_neg (fun hm => hpc (hks p.1 hm)), if_neg hpc]

lemma dirClear_claims (d : Int) (bstr : String) (a : AxisData) :
    (dirClear d bstr a).axis = a.axis ∧
    ((dirClear d bstr a).keyDescriptionPositive = a.keyDescriptionPositive ∨
      (dirClear d bstr a).keyDescriptionPositive = none) ∧
    ((dirClear d bstr a).keyDescriptionNegative = a.keyDescriptionNegative ∨
      (dirClear d bstr a).keyDescriptionNegative = none) := by
  unfold dirClear
  by_cases hax : a.axis = bstr
  · rw [if_pos hax]
    by_cases hneg : d = -1
    · rw [if_pos hneg]
      rcases h : a.keyDescriptionNegative with _ | kd <;> simp [h]
    · rw [if_neg hneg]
      by_cases hpos : d = 1
      · rw [if_pos hpos]
        rcases h : a.keyDescriptionPositive with _ | kd <;> simp [h]
      · rw [if_neg hpos]
        simp
  · rw [if_neg hax]
    simp

lemma claimsOK_dirClear {kbs : List (String × KeyBinding)} (d : Int)
    (bstr : String) {l : List AxisData} (hC : ClaimsOK kbs l) :
    ClaimsOK kbs (l.map (dirClear d bstr)) := by
  intro a' ha'
  obtain ⟨a, ha, rfl⟩ := List.mem_map.mp ha'
  obtain ⟨haxis, hpos, hneg⟩ := dirClear_claims d bstr a
  constructor
  · intro kd hkd
    rcases hpos with hp | hp
    · rw [hp] at hkd
      obtain ⟨kb, b, h1, h2, h3, h4, h5⟩ := (hC a ha).1 kd hkd
      exact ⟨kb, b, h1, h2, h3, h4.trans haxis.symm, h5⟩
    · rw [hp] at hkd
      cases hkd
  · intro kd hkd
    rcases hneg with hn | hn
    · rw [hn] at hkd
      obtain ⟨kb, b, h1, h2, h3, h4, h5⟩ := (hC a ha).2 kd hkd
      exact ⟨kb, b, h1, h2, h3, h4.trans haxis.symm, h5⟩
    · rw [hn] at hkd
      cases hkd

lemma claimsOK_fresh (kbs : List (String × KeyBinding))
    (ad : List (String × Rat)) :
    ClaimsOK kbs (ad.map (fun p => newAxisData p.1 p.2)) := by
  intro a ha
  obtain ⟨p, hp, rfl⟩ := List.mem_map.mp ha
  constructor
  · intro kd h
    exact nomatch h
  · intro kd h
    exact nomatch h

lemma claimants_all_eq {kbs : List (String × KeyBinding)} {axes : List AxisData}
    {c : String} {kb : KeyBinding} {bs : String}
    (hNS : NoSharedInput kbs) (hCO : ClaimsOK kbs axes)
    (hmem : (c, kb) ∈ kbs) (hb : kb.binding = some bs)
    (hax : isAxisBinding bs = true) :
    ∀ k ∈ claimantsOf kb.axisDirection (dropChars bs 5) axes, k = c := by
  intro k hk
  obtain ⟨a, ha, haxis, hcase⟩ := mem_claimantsOf hk
  by_cases hkc : k = c
  · exact hkc
  · exfalso
    rcases hcase with ⟨hd, hclaim⟩ | ⟨hd, hclaim⟩
    · obtain ⟨kb', b', h1, h2, h3, h4, h5⟩ := (hCO a ha).1 k hclaim
      have hns := hNS c kb k kb' bs b' hmem (mem_of_kbLookup h1)
        (fun he => hkc he.symm) hb h2
      exact hns.2 hax h3 (h4.trans haxis).symm
        (Or.inl ⟨by omega, h5⟩)
    · obtain ⟨kb', b', h1, h2, h3, h4, h5⟩ := (hCO a ha).2 k hclaim
      have hns := hNS c kb k kb' bs b' hmem (mem_of_kbLookup h1)
        (fun he => hkc he.symm) hb h2
      exact hns.2 hax h3 (h4.trans haxis).symm
        (Or.inr ⟨by omega, h5⟩)

lemma holders_all_eq {kbs : List (String × KeyBinding)} {c : String}
    {kb : KeyBinding} {bs : String}
    (hNS : NoSharedInput kbs) (hmem : (c, kb) ∈ kbs)
    (hb : kb.binding = some bs) (hax : isAxisBinding bs = false) :
    ∀ k ∈ holdersOf kbs bs, k = c := by
  intro k hk
  obtain ⟨p, hp, hpk⟩ := List.mem_map.mp hk
  obtain ⟨hpm, hpb⟩ := List.mem_filter.mp hp
  obtain ⟨a, bb⟩ := p
  cases hpk
  by_cases hkc : a = c
  · exact hkc
  · exfalso
    have hbb : bb.binding = some bs := by
      simp only [decide_eq_true_eq] at hpb
      exact hpb.symm
    have hns := hNS c kb a bb bs bs hmem hpm (fun he => hkc he.symm) hb hbb
    rw [hns.1 rfl] at hax
    cases hax

lemma clearKeyEvent_refresh_step {kbs : List (String × KeyBinding)}
    {c : String} {kb : KeyBinding} (hNS : NoSharedInput kbs)
    (hmem : (c, kb) ∈ kbs) (t : KMState) (ht : t.keyBindings = kbs)
    (hCO : ClaimsOK kbs t.axesInUse) (b : Option String)
    (hbv : b = none ∨ b = kb.binding) :
    ∃ sA, clearKeyEvent t b kb.axisDirection = Except.ok sA ∧
      (sA.keyBindings = kbs ∨ sA.keyBindings = kbUpdate kbs c nullEntry) ∧
      ClaimsOK kbs sA.axesInUse := by
  rcases hbv with rfl | rfl
  · exact ⟨t, rfl, Or.inl ht, hCO⟩
  · cases hkbb : kb.binding with
    | none => exact ⟨t, rfl, Or.inl ht, hCO⟩
    | some bs =>
      by_cases hax : isAxisBinding bs = true
      · have hlk : ∀ k ∈ claimantsOf kb.axisDirection (dropChars bs 5)
            t.axesInUse, (kbLookup t.keyBindings k).isSome = true := by
          intro k hk
          obtain ⟨a, ha, haxis, hcase⟩ := mem_claimantsOf hk
          rw [ht]
          rcases hcase with ⟨_, hclaim⟩ | ⟨_, hclaim⟩
          · obtain ⟨kb', b', h1, _⟩ := (hCO a ha).1 k hclaim
            rw [h1]
            rfl
          · obtain ⟨kb', b', h1, _⟩ := (hCO a ha).2 k hclaim
            rw [h1]
            rfl
        obtain ⟨sA, heq, h1, h2⟩ :=
          clearKeyEvent_axis_spec t bs kb.axisDirection hax hlk
        have hall : ∀ k ∈ claimantsOf kb.axisDirection (dropChars bs 5)
            t.axesInUse, k = c :=
          claimants_all_eq hNS hCO hmem hkbb hax
        refine ⟨sA, heq, ?_, ?_⟩
        · rw [h1, ht]
          by_cases hc : c ∈ claimantsOf kb.axisDirection (dropChars bs 5)
              t.axesInUse
          · exact Or.inr (nullK_all_eq _ _ c hall hc)
          · refine Or.inl (nullK_not_mem _ _ ?_)
            intro p hp hpmem
            exact hc (hall p.1 hpmem ▸ hpmem)
        · refine claimsOK_of_claims_eq h2.symm ?_
          exact claimsOK_filter (claimsOK_dirClear _ _ hCO)
      · rw [Bool.not_eq_true] at hax
        obtain ⟨sA, heq, h1, h2⟩ :=
          clearKeyEvent_nonaxis_spec t bs kb.axisDirection hax
        have hall : ∀ k ∈ holdersOf kbs bs, k = c :=
          holders_all_eq hNS hmem hkbb hax
        refine ⟨sA, heq, ?_, ?_⟩
        · rw [h1, ht]
          by_cases hc : c ∈ holdersOf kbs bs
          · exact Or.inr (nullK_all_eq _ _ c hall hc)
          · refine Or.inl (nullK_not_mem _ _ ?_)
            intro p hp hpmem
            exact hc (hall p.1 hpmem ▸ hpmem)
        · exact claimsOK_of_claims_eq h2.symm (claimsOK_filter hCO)

end RoundTripLemmas

section RoundTripStep

lemma claimAxis_claimsOK {kbs : List (String × KeyBinding)} {c : String}
    {kb : KeyBinding} {bs : String} (hlook : kbLookup kbs c = some kb)
    (hb : kb.binding = some bs) (hax : isAxisBinding bs = true)
    (a : AxisData) (haxis : a.axis = dropChars bs 5)
    (device : Option Nat) (dtv : String) (hOK : ClaimsOK kbs [a]) :
    ClaimsOK kbs [claimAxis a c kb.axisDirection device dtv] := by
  have hP := hOK a (List.mem_singleton.mpr rfl)
  intro a' ha'
  have ha'' := List.mem_singleton.mp ha'
  subst ha''
  unfold claimAxis
  rcases lt_trichotomy kb.axisDirection 0 with hlt | hz | hgt
  · rw [if_neg (by omega), if_pos hlt]
    refine ⟨?_, ?_⟩
    · intro kd hkd
      obtain ⟨kb', b', h1, h2, h3, h4, h5⟩ := hP.1 kd hkd
      exact ⟨kb', b', h1, h2, h3, h4, h5⟩
    · intro kd hkd
      cases Option.some.inj hkd
      exact ⟨kb, bs, hlook, hb, hax, haxis.symm, hlt⟩
  · rw [if_neg (by omega), if_neg (by omega)]
    exact hP
  · rw [if_pos hgt]
    refine ⟨?_, ?_⟩
    · intro kd hkd
      cases Option.some.inj hkd
      exact ⟨kb, bs, hlook, hb, hax, haxis.symm, hgt⟩
    · intro kd hkd
      obtain ⟨kb', b', h1, h2, h3, h4, h5⟩ := hP.2 kd hkd
      exact ⟨kb', b', h1, h2, h3, h4, h5⟩

lemma bindKeyCommit_claimsOK (env : Env) (sB : KMState)
    {kbs : List (String × KeyBinding)} {c : String} {kb : KeyBinding}
    (hNodup : (kbs.map Prod.fst).Nodup) (hmem : (c, kb) ∈ kbs)
    (hCO : ClaimsOK kbs sB.axesInUse) :
    ClaimsOK kbs (bindKeyCommit env sB c kb.binding kb.deviceType
      kb.axisDirection).axesInUse := by
  have hlook : kbLookup kbs c = some kb := kbLookup_mem_nodup hNodup hmem
  unfold bindKeyCommit
  cases hbv : kb.binding with
  | none => exact hCO
  | some bs =>
    cases hdtv : kb.deviceType with
    | none => exact hCO
    | some dtv =>
      dsimp only
      generalize hpr : addUsedDevice env { sB with keyBindings :=
        (kbUpdate sB.keyBindings c
          (setFields (some bs) (some dtv) kb.axisDirection)) } dtv = pr
      have hCOD : ClaimsOK kbs pr.1.axesInUse := by
        refine claimsOK_of_claims_eq ?_ hCO
        rw [← hpr]
        exact (addUsedDevice_axesClaims env { sB with keyBindings :=
          (kbUpdate sB.keyBindings c
            (setFields (some bs) (some dtv) kb.axisDirection)) } dtv).symm
      by_cases hax : isAxisBinding bs = true
      · rw [if_pos hax]
        have hmap : ClaimsOK kbs (pr.1.axesInUse.map (fun a =>
            if a.axis = dropChars bs 5 then
              claimAxis a c kb.axisDirection pr.2 dtv else a)) := by
          intro a' ha'
          obtain ⟨a, ha, rfl⟩ := List.mem_map.mp ha'
          by_cases haxis : a.axis = dropChars bs 5
          · rw [if_pos haxis]
            exact claimAxis_claimsOK hlook hbv hax a haxis pr.2 dtv
              (fun x hx => by
                rw [List.mem_singleton.mp hx]
                exact hCOD a ha)
              _ (List.mem_singleton.mpr rfl)
          · rw [if_neg haxis]
            exact hCOD a ha
        split
        · exact hmap
        · intro a' ha'
          rcases List.mem_append.mp ha' with hm | hm
          · exact hmap a' hm
          · have hm' := List.mem_singleton.mp hm
            subst hm'
            exact claimAxis_claimsOK hlook hbv hax _ rfl pr.2 dtv
              (claimsOK_fresh kbs [(dropChars bs 5, _)])
              _ (List.mem_singleton.mpr rfl)
      · rw [if_neg hax]
        exact hCOD

lemma bindKey_refresh_step (env : Env) {kbs : List (String × KeyBinding)}
    {c : String} {kb : KeyBinding}
    (hNodup : (kbs.map Prod.fst).Nodup) (hNS : NoSharedInput kbs)
    (hmem : (c, kb) ∈ kbs)
    (hcb : callbackCheckMsg kb.ktype kb.callback = none)
    (t : KMState) (ht : t.keyBindings = kbs) (hCO : ClaimsOK kbs t.axesInUse) :
    ∃ u, bindKey env t c kb.binding kb.ktype kb.callback kb.deviceType
        kb.axisDirection = Except.ok u ∧
      u.keyBindings = kbs ∧ ClaimsOK kbs u.axesInUse := by
  have huniq : ∀ p ∈ kbs, p.1 = c → p.2 = kb := by
    intro p hp hpc
    have hcp : (c, p.2) ∈ kbs := by
      rw [← hpc]
      exact hp
    exact mem_unique_of_nodup hNodup hcp hmem
  obtain ⟨sA, hA, hAk, hACO⟩ := clearKeyEvent_refresh_step hNS hmem t ht hCO
    kb.binding (Or.inr rfl)
  rcases hAk with hAk | hAk
  · have hlookA : kbLookup sA.keyBindings c = some kb := by
      rw [hAk]
      exact kbLookup_mem_nodup hNodup hmem
    obtain ⟨sB, hB, hBk, hBCO⟩ := clearKeyEvent_refresh_step hNS hmem sA hAk
      hACO kb.binding (Or.inr rfl)
    refine ⟨bindKeyCommit env sB c kb.binding kb.deviceType kb.axisDirection,
      ?_, ?_, ?_⟩
    · unfold bindKey
      simp only [hA, hlookA, hB, hcb]
    · rw [bindKeyCommit_keyBindings]
      rcases hBk with hBk | hBk
      · rw [hBk]
        exact kbUpdate_no_change kbs c _ (fun p hp hpc => by
          rw [huniq p hp hpc]
          exact setFields_self kb)
      · rw [hBk, kbUpdate_comp]
        exact kbUpdate_no_change kbs c _ (fun p hp hpc => by
          rw [huniq p hp hpc]
          exact setFields_restore kb)
    · exact bindKeyCommit_claimsOK env sB hNodup hmem hBCO
  · have hlookA : kbLookup sA.keyBindings c = some (nullEntry kb) := by
      rw [hAk, kbLookup_kbUpdate, if_pos rfl, kbLookup_mem_nodup hNodup hmem]
      rfl
    have hBnone : clearKeyEvent sA (nullEntry kb).binding
        (nullEntry kb).axisDirection = Except.ok sA := rfl
    refine ⟨bindKeyCommit env sA c kb.binding kb.deviceType kb.axisDirection,
      ?_, ?_, ?_⟩
    · unfold bindKey
      simp only [hA, hlookA, hBnone, hcb]
    · rw [bindKeyCommit_keyBindings, hAk, kbUpdate_comp]
      exact kbUpdate_no_change kbs c _ (fun p hp hpc => by
        rw [huniq p hp hpc]
        exact setFields_restore kb)
    · exact bindKeyCommit_claimsOK env sA hNodup hmem hACO

end RoundTripStep

section RoundTripLoop

lemma buildBindingList_save (kbs : List (String × KeyBinding))
    (hNodup : (kbs.map Prod.fst).Nodup) :
    ∀ rl : List (String × KeyBinding), (∀ p ∈ rl, p ∈ kbs) →
      buildBindingList kbs (rl.map (fun p =>
          (p.1, p.2.binding, p.2.deviceType, p.2.axisDirection))) =
        Except.ok (rl.map (fun p =>
          (p.1, p.2.binding, p.2.ktype, p.2.callback, p.2.deviceType,
            p.2.axisDirection)))
  | [] => fun _ => rfl
  | (c, kb) :: rest => fun hsub => by
    rw [List.map_cons, List.map_cons]
    simp only [buildBindingList,
      kbLookup_mem_nodup hNodup (hsub (c, kb) (List.mem_cons_self (c, kb) rest)),
      buildBindingList_save kbs hNodup rest
        (fun p hp => hsub p (List.mem_cons_of_mem (c, kb) hp))]

lemma bindLoop_restore (env : Env) (kbs : List (String × KeyBinding))
    (hNodup : (kbs.map Prod.fst).Nodup) (hNS : NoSharedInput kbs)
    (hVC : ValidCallbacks kbs) :
    ∀ (rl : List (String × KeyBinding)) (t : KMState),
      (∀ p ∈ rl, p ∈ kbs) → t.keyBindings = kbs → ClaimsOK kbs t.axesInUse →
      ∃ u, bindLoop env t (rl.map (fun p =>
          (p.1, p.2.binding, p.2.ktype, p.2.callback, p.2.deviceType,
            p.2.axisDirection))) = Except.ok u ∧ u.keyBindings = kbs
  | [], t => fun _ ht _ => ⟨t, rfl, ht⟩
  | (c, kb) :: rest, t => fun hsub ht hCO => by
    obtain ⟨u1, hu1, hu1k, hu1CO⟩ := bindKey_refresh_step env hNodup hNS
      (hsub (c, kb) (List.mem_cons_self (c, kb) rest))
      (hVC (c, kb) (hsub (c, kb) (List.mem_cons_self (c, kb) rest)))
      t ht hCO
    obtain ⟨u, hu, huk⟩ := bindLoop_restore env kbs hNodup hNS hVC rest u1
      (fun p hp => hsub p (List.mem_cons_of_mem (c, kb) hp)) hu1k hu1CO
    refine ⟨u, ?_, huk⟩
    rw [List.map_cons]
    simp only [bindLoop, hu1]
    exact hu

end RoundTripLoop

/-- C2 amended: provided no two distinct controls hold the same physical
input (an equal non-axis binding string, or the same claimed sign of the
same axis), the control names are distinct, and every stored callback
passes the binding-type validation, saving the key mapping and loading
exactly what was saved succeeds and restores the whole binding table —
every control keeps its binding, device type and axis direction.  (With
sharing the re-bind loop destroys the other holder's identical binding:
the counterexample.) -/
theorem c2_roundtrip_amended (env : Env) (s : KMState)
    (hNodup : (s.keyBindings.map Prod.fst).Nodup)
    (hNS : NoSharedInput s.keyBindings)
    (hVC : ValidCallbacks s.keyBindings) :
    ∃ t, loadKeyMapping env s
        (LoadOutcome.ok (keySaveData s) (axisSaveData s)) = Except.ok t ∧
      t.keyBindings = s.keyBindings := by
  obtain ⟨u, hu, huk⟩ := bindLoop_restore env s.keyBindings hNodup hNS hVC
    s.keyBindings
    { s with axesInUse := (axisSaveData s).map (fun p => newAxisData p.1 p.2) }
    (fun p hp => hp) rfl
    (claimsOK_fresh s.keyBindings (axisSaveData s))
  refine ⟨u, ?_, huk⟩
  unfold loadKeyMapping keySaveData
  simp only [buildBindingList_save s.keyBindings hNodup s.keyBindings
    (fun p hp => hp)]
  exact hu

/-- C2 amended witness: the two-control state (`c1` on the button "x",
`c2` unbound, disjoint groups) round-trips: the load of its own save data
restores its binding table. -/
theorem c2_roundtrip_amended_witness :
    ∃ t, loadKeyMapping envNull twoControls
        (LoadOutcome.ok (keySaveData twoControls) (axisSaveData twoControls)) =
        Except.ok t ∧
      t.keyBindings = twoControls.keyBindings :=
  c2_roundtrip_amended envNull twoControls (by decide)
    (by
      intro c1 kb1 c2 kb2 b1 b2 h1 h2 hne hb1 hb2
      have hKB : twoControls.keyBindings =
          [("c1", { baseKB with binding := some "x",
                                deviceType := some "keyboard" }),
           ("c2", { baseKB with groupID := 2 })] := rfl
      rw [hKB] at h1 h2
      simp only [List.mem_cons, List.not_mem_nil, or_false,
        Prod.mk.injEq] at h1 h2
      rcases h1 with ⟨rfl, rfl⟩ | ⟨rfl, rfl⟩ <;>
        rcases h2 with ⟨rfl, rfl⟩ | ⟨rfl, rfl⟩ <;>
        simp_all [baseKB])
    (by
      unfold ValidCallbacks
      decide)
